import Mathlib

/-!
A shallow embedding of the `VinylRigVote` contract
(`src/fhevm-hardhat-template/contracts/VinylRigVote.sol`) together with proofs
about its session lifecycle, ballot store, homomorphic aggregation and
decryption-authorization logic.

Solidity specifics are rendered as follows.

* Storage mappings become total functions with the Solidity default value
  (`0`, `false`, empty struct) as the base case; a pointwise update models a
  storage write.
* `uint256` / `uint16` / `uint8` values are `Nat`; checked arithmetic that can
  overflow (`_sessionCounter++`, `_voteCounts[..]++`) is guarded by an explicit
  bound check that fails with `Err.Overflow`, mirroring the Solidity 0.8 panic
  and revert.
* `require` failures are `Except.error` with a constructor named after the
  error taxonomy of the specification; a failed call reverts, i.e. leaves the
  state unchanged (`applyOp` keeps the pre-state on `Except.error`).
* Modelled from the spec: the homomorphic backend (the `@fhevm/solidity` `FHE`
  library, an external dependency that is not part of this repository) is
  taken from spec section 6: ciphertext admission (`FHE.fromExternal`) yields a
  fresh opaque handle carrying the admitted plaintext (a 16-bit value for
  `externalEuint16`, an 8-bit value for `externalEuint8`), the homomorphic add
  yields a fresh handle representing the encrypted sum, and `FHE.allow` /
  `FHE.allowThis` record a capability grant of a (handle, principal) pair.
  A `Cipher` therefore pairs the handle identity with the plaintext it
  decrypts to, and the access-control list is a boolean table over
  (handle, principal).

The unused storage mappings `_decryptedResults` and `_decryptedTagCounts`
(declared in the source but never read or written by any function) are omitted.
-/

namespace VinylRigVote

/-- Session lifecycle states, mirroring `enum SessionState` of the source
(`Draft = 0`, `Active = 1`, `Closed = 2`, `Revealed = 3`). -/
inductive SessionState
  | Draft
  | Active
  | Closed
  | Revealed
deriving DecidableEq, Repr

/-- Numeric code of a session state, as returned by `getSessionState`. -/
def stateCode : SessionState → Nat
  | .Draft => 0
  | .Active => 1
  | .Closed => 2
  | .Revealed => 3

/-- A principal that can hold decrypt capability on a ciphertext handle:
an externally-owned account address (`Nat`, with `0` playing the role of
`address(0)`), or the contract itself (the target of `FHE.allowThis`). -/
inductive Principal
  | addr (a : Nat)
  | contract
deriving DecidableEq, Repr

/-- Modelled from the spec: an opaque ciphertext handle of the external
homomorphic backend, paired with the plaintext value it decrypts to
(spec section 6).  Handle `0` is the all-zero default of an untouched
`euint16` / `euint8` storage slot. -/
structure Cipher where
  hdl : Nat
  val : Nat
deriving DecidableEq, Repr

/-- The default (zero) ciphertext handle of an untouched storage slot. -/
def cipherZero : Cipher := ⟨0, 0⟩

/-- Mirrors `struct Vote`: an encrypted rating, five encrypted preference
tags, and the submitted flag. -/
structure Vote where
  rating : Cipher
  tags : Fin 5 → Cipher
  submitted : Bool

/-- The Solidity default value of a `Vote` storage slot. -/
def defaultVote : Vote := ⟨cipherZero, fun _ => cipherZero, false⟩

/-- Mirrors `struct Session`. -/
structure Session where
  organizer : Nat
  title : String
  description : String
  deadline : Nat
  state : SessionState
  numSetups : Nat
  equipmentNames : List String
  trackList : String

/-- The Solidity default value of a `Session` storage slot; in particular
`organizer = 0` (`address(0)`), which is what the `sessionExists` modifier
tests, and `state = Draft`. -/
def defaultSession : Session :=
  ⟨0, "", "", 0, .Draft, 0, [], ""⟩

/-- Error kinds, one per `require` of the source (names follow the
specification's error taxonomy; the corresponding revert string is noted). -/
inductive Err
  | SessionNotFound    -- "Session does not exist"
  | NotOrganizer       -- "Not session organizer"
  | SessionNotActive   -- "Session not active"
  | DeadlinePassed     -- "Voting deadline passed"
  | NotClosed          -- "Session not closed" / "Session must be closed first"
  | InvalidDeadline    -- "Deadline must be in future"
  | InvalidSetupCount  -- "Number of setups must be 2-10"
  | NameCountMismatch  -- "Equipment names length mismatch"
  | InvalidSetupIndex  -- "Invalid setup index"
  | DuplicateVote      -- "Already voted for this setup"
  | AlreadyRequested   -- "Decryption already requested"
  | NotRevealed        -- "Equipment not yet revealed"
  | Forbidden          -- "Can only view own votes"
  | NotFound           -- "No vote found"
  | InvalidTagIndex    -- "Invalid tag index"
  | Overflow           -- Solidity 0.8 checked-arithmetic panic
deriving DecidableEq, Repr

/-- Pointwise update of a one-key storage mapping. -/
def upd {β : Type} (f : Nat → β) (k : Nat) (v : β) : Nat → β :=
  fun k' => if k' = k then v else f k'

/-- Pointwise update of a two-key storage mapping. -/
def upd2 {β : Type} (f : Nat → Nat → β) (k1 k2 : Nat) (v : β) : Nat → Nat → β :=
  fun a b => if a = k1 ∧ b = k2 then v else f a b

/-- Pointwise update of a three-key storage mapping. -/
def upd3 {β : Type} (f : Nat → Nat → Nat → β) (k1 k2 k3 : Nat) (v : β) :
    Nat → Nat → Nat → β :=
  fun a b c => if a = k1 ∧ b = k2 ∧ c = k3 then v else f a b c

/-- Modelled from the spec: the access-control list of the external backend is
a table of (handle, principal) capability grants (spec section 6). -/
def Acl : Type := Nat → Principal → Bool

/-- A single `FHE.allow` / `FHE.allowThis` grant. -/
def aclAllow (a : Acl) (h : Nat) (p : Principal) : Acl :=
  fun h' p' => if h' = h ∧ p' = p then true else a h' p'

/-- A sequence of grants, applied left to right. -/
def aclAllowAll (a : Acl) : List (Nat × Principal) → Acl
  | [] => a
  | g :: gs => aclAllowAll (aclAllow a g.1 g.2) gs

/-- The whole contract storage (plus the backend's handle allocator and
access-control list). -/
structure CState where
  sessionCounter : Nat
  sessions : Nat → Session
  votes : Nat → Nat → Nat → Vote
  sessionTotals : Nat → Nat → Cipher
  tagTotals : Nat → Nat → Fin 5 → Cipher
  voteCounts : Nat → Nat → Nat
  decryptionRequested : Nat → Bool
  nextHandle : Nat
  acl : Acl

/-- The storage of a freshly deployed contract. -/
def initState : CState where
  sessionCounter := 0
  sessions := fun _ => defaultSession
  votes := fun _ _ _ => defaultVote
  sessionTotals := fun _ _ => cipherZero
  tagTotals := fun _ _ _ => cipherZero
  voteCounts := fun _ _ => 0
  decryptionRequested := fun _ => false
  nextHandle := 1
  acl := fun _ _ => false

/-- Mirrors `createSession` (source lines 105-132).  `sender` is `msg.sender`, `now`
is `block.timestamp`.  Returns the new state and the fresh session id. -/
def createSession (σ : CState) (sender now : Nat) (title description : String)
    (deadline : Nat) (numSetups : Nat) (equipmentNames : List String)
    (trackList : String) : Except Err (CState × Nat) :=
  if ¬ now < deadline then .error .InvalidDeadline
  else if ¬ (2 ≤ numSetups ∧ numSetups ≤ 10) then .error .InvalidSetupCount
  else if ¬ equipmentNames.length = numSetups then .error .NameCountMismatch
  else if ¬ σ.sessionCounter + 1 < 2 ^ 256 then .error .Overflow
  else
    .ok ({ σ with
      sessionCounter := σ.sessionCounter + 1
      sessions := upd σ.sessions σ.sessionCounter
        { organizer := sender, title := title, description := description,
          deadline := deadline, state := .Active, numSetups := numSetups,
          equipmentNames := equipmentNames, trackList := trackList } },
      σ.sessionCounter)

/-- The per-ballot capability grants of a successful `submitVote`
(source lines 187-193): voter and contract on each of the six fresh ballot
handles, in call order. -/
def ballotGrants (sender : Nat) (encRating : Cipher) (encTags : Fin 5 → Cipher) :
    List (Nat × Principal) :=
  [ (encRating.hdl, .addr sender), (encRating.hdl, .contract),
    ((encTags 0).hdl, .addr sender), ((encTags 0).hdl, .contract),
    ((encTags 1).hdl, .addr sender), ((encTags 1).hdl, .contract),
    ((encTags 2).hdl, .addr sender), ((encTags 2).hdl, .contract),
    ((encTags 3).hdl, .addr sender), ((encTags 3).hdl, .contract),
    ((encTags 4).hdl, .addr sender), ((encTags 4).hdl, .contract) ]

/-- The per-aggregate capability grants of a successful `submitVote`
(source lines 195-199): the contract on the six running-total handles. -/
def totalsGrants (newTotal : Cipher) (newTagTotals : Fin 5 → Cipher) :
    List (Nat × Principal) :=
  [ (newTotal.hdl, .contract),
    ((newTagTotals 0).hdl, .contract), ((newTagTotals 1).hdl, .contract),
    ((newTagTotals 2).hdl, .contract), ((newTagTotals 3).hdl, .contract),
    ((newTagTotals 4).hdl, .contract) ]

/-- The capability grants issued by a successful `submitVote`
(source lines 187-199), in call order. -/
def submitGrants (sender : Nat) (encRating : Cipher) (encTags : Fin 5 → Cipher)
    (newTotal : Cipher) (newTagTotals : Fin 5 → Cipher) : List (Nat × Principal) :=
  ballotGrants sender encRating encTags ++ totalsGrants newTotal newTagTotals

/-- The state change of a successful `submitVote` (source lines 150-201).
Handles are allocated in call order: `FHE.fromExternal` on the rating
(handle `n`), then on the five tags (handles `n+1 .. n+5`); on a non-first
vote `FHE.add` then yields the new rating total (handle `n+6`) and the five
new tag totals (handles `n+7 .. n+11`).  A first vote assigns the incoming
ballot ciphertexts to the totals directly. -/
def submitCore (σ : CState) (sender sid idx : Nat) (r : Nat) (t : Fin 5 → Nat) :
    CState :=
  let n := σ.nextHandle
  let c := σ.voteCounts sid idx
  let encRating : Cipher := ⟨n, r % 2 ^ 16⟩
  let encTags : Fin 5 → Cipher := fun j => ⟨n + 1 + j.val, t j % 2 ^ 8⟩
  let newTotal : Cipher :=
    if c = 0 then encRating
    else ⟨n + 6, (σ.sessionTotals sid idx).val + r % 2 ^ 16⟩
  let newTagTotals : Fin 5 → Cipher :=
    if c = 0 then encTags
    else fun j => ⟨n + 7 + j.val, (σ.tagTotals sid idx j).val + t j % 2 ^ 8⟩
  { σ with
    votes := upd3 σ.votes sid idx sender ⟨encRating, encTags, true⟩
    sessionTotals := upd2 σ.sessionTotals sid idx newTotal
    tagTotals := upd2 σ.tagTotals sid idx newTagTotals
    voteCounts := upd2 σ.voteCounts sid idx (c + 1)
    nextHandle := if c = 0 then n + 6 else n + 12
    acl := aclAllowAll σ.acl (submitGrants sender encRating encTags newTotal newTagTotals) }

/-- Mirrors `submitVote` (source lines 140-202).  Guard order follows the source:
the `sessionExists` modifier, the `onlyActiveSession` modifier (state, then
deadline), the setup-index `require`, the duplicate-vote `require`, and the
checked `uint16` counter increment. -/
def submitVote (σ : CState) (sender now sid idx : Nat) (r : Nat)
    (t : Fin 5 → Nat) : Except Err CState :=
  if (σ.sessions sid).organizer = 0 then .error .SessionNotFound
  else if ¬ (σ.sessions sid).state = .Active then .error .SessionNotActive
  else if ¬ now ≤ (σ.sessions sid).deadline then .error .DeadlinePassed
  else if ¬ idx < (σ.sessions sid).numSetups then .error .InvalidSetupIndex
  else if (σ.votes sid idx sender).submitted then .error .DuplicateVote
  else if ¬ σ.voteCounts sid idx + 1 < 2 ^ 16 then .error .Overflow
  else .ok (submitCore σ sender sid idx r t)

/-- Mirrors `closeSession` (source lines 206-216): `sessionExists`, `onlyOrganizer`,
then the `Active`-state `require`; no deadline check. -/
def closeSession (σ : CState) (sender sid : Nat) : Except Err CState :=
  if (σ.sessions sid).organizer = 0 then .error .SessionNotFound
  else if ¬ (σ.sessions sid).organizer = sender then .error .NotOrganizer
  else if ¬ (σ.sessions sid).state = .Active then .error .SessionNotActive
  else .ok { σ with
    sessions := upd σ.sessions sid { σ.sessions sid with state := .Closed } }

/-- Mirrors `computeRankings` (source lines 221-230): `sessionExists` and
`onlyClosedSession`, then only an event — no state change. -/
def computeRankings (σ : CState) (sid : Nat) : Except Err CState :=
  if (σ.sessions sid).organizer = 0 then .error .SessionNotFound
  else if ¬ (σ.sessions sid).state = .Closed then .error .NotClosed
  else .ok σ

/-- The six aggregate ciphertext handles of one (session, setup) pair:
the rating total and the five tag totals. -/
def aggHandles (σ : CState) (sid idx : Nat) : List Nat :=
  [ (σ.sessionTotals sid idx).hdl,
    (σ.tagTotals sid idx 0).hdl, (σ.tagTotals sid idx 1).hdl,
    (σ.tagTotals sid idx 2).hdl, (σ.tagTotals sid idx 3).hdl,
    (σ.tagTotals sid idx 4).hdl ]

/-- The grants issued by `requestOrganizerDecryption` for one setup index
(source lines 245-254): organizer and contract on the rating total and on
each tag total. -/
def setupGrants (σ : CState) (sid i sender : Nat) : List (Nat × Principal) :=
  [ ((σ.sessionTotals sid i).hdl, .addr sender),
    ((σ.sessionTotals sid i).hdl, .contract),
    ((σ.tagTotals sid i 0).hdl, .addr sender), ((σ.tagTotals sid i 0).hdl, .contract),
    ((σ.tagTotals sid i 1).hdl, .addr sender), ((σ.tagTotals sid i 1).hdl, .contract),
    ((σ.tagTotals sid i 2).hdl, .addr sender), ((σ.tagTotals sid i 2).hdl, .contract),
    ((σ.tagTotals sid i 3).hdl, .addr sender), ((σ.tagTotals sid i 3).hdl, .contract),
    ((σ.tagTotals sid i 4).hdl, .addr sender), ((σ.tagTotals sid i 4).hdl, .contract) ]

/-- The grants of `requestOrganizerDecryption` over setup indices `0 .. n-1`,
in loop order, skipping setups with vote count `0`. -/
def decryptionGrants (σ : CState) (sid sender : Nat) : Nat → List (Nat × Principal)
  | 0 => []
  | n + 1 =>
    decryptionGrants σ sid sender n ++
      (if 0 < σ.voteCounts sid n then setupGrants σ sid n sender else [])

/-- Mirrors `requestOrganizerDecryption` (source lines 235-259): `sessionExists`,
`onlyOrganizer`, `onlyClosedSession`, then the one-shot `require`; on success
it grants organizer and contract on every positive-count setup's aggregate
handles and sets the requested flag. -/
def requestOrganizerDecryption (σ : CState) (sender sid : Nat) : Except Err CState :=
  if (σ.sessions sid).organizer = 0 then .error .SessionNotFound
  else if ¬ (σ.sessions sid).organizer = sender then .error .NotOrganizer
  else if ¬ (σ.sessions sid).state = .Closed then .error .NotClosed
  else if σ.decryptionRequested sid then .error .AlreadyRequested
  else .ok { σ with
    decryptionRequested := upd σ.decryptionRequested sid true
    acl := aclAllowAll σ.acl (decryptionGrants σ sid sender (σ.sessions sid).numSetups) }

/-- Mirrors `revealEquipment` (source lines 263-275): `sessionExists`,
`onlyOrganizer`, then the `Closed`-state `require`. -/
def revealEquipment (σ : CState) (sender sid : Nat) : Except Err CState :=
  if (σ.sessions sid).organizer = 0 then .error .SessionNotFound
  else if ¬ (σ.sessions sid).organizer = sender then .error .NotOrganizer
  else if ¬ (σ.sessions sid).state = .Closed then .error .NotClosed
  else .ok { σ with
    sessions := upd σ.sessions sid { σ.sessions sid with state := .Revealed } }

/-- Mirrors `getUserVote` (source lines 283-295): `sessionExists`, the self-service
check, then the submitted check. -/
def getUserVote (σ : CState) (sender sid idx user : Nat) :
    Except Err (Cipher × (Fin 5 → Cipher)) :=
  if (σ.sessions sid).organizer = 0 then .error .SessionNotFound
  else if ¬ sender = user then .error .Forbidden
  else if ¬ (σ.votes sid idx user).submitted then .error .NotFound
  else .ok ((σ.votes sid idx user).rating, (σ.votes sid idx user).tags)

/-- Mirrors `getSession` (source lines 306-330). -/
def getSession (σ : CState) (sid : Nat) :
    Except Err (Nat × String × String × Nat × SessionState × Nat × String) :=
  if (σ.sessions sid).organizer = 0 then .error .SessionNotFound
  else .ok ((σ.sessions sid).organizer, (σ.sessions sid).title,
    (σ.sessions sid).description, (σ.sessions sid).deadline,
    (σ.sessions sid).state, (σ.sessions sid).numSetups,
    (σ.sessions sid).trackList)

/-- Mirrors `getEquipmentNames` (source lines 335-346): `sessionExists`, then the
reveal gate.  `caller` is `msg.sender`, which the body never reads. -/
def getEquipmentNames (σ : CState) (caller sid : Nat) : Except Err (List String) :=
  if (σ.sessions sid).organizer = 0 then .error .SessionNotFound
  else if ¬ (σ.sessions sid).state = .Revealed then .error .NotRevealed
  else .ok (σ.sessions sid).equipmentNames

/-- Mirrors `getVoteCount` (source lines 352-359). -/
def getVoteCount (σ : CState) (sid idx : Nat) : Except Err Nat :=
  if (σ.sessions sid).organizer = 0 then .error .SessionNotFound
  else .ok (σ.voteCounts sid idx)

/-- Mirrors `getSessionCount` (source lines 363-365): no modifier. -/
def getSessionCount (σ : CState) : Nat :=
  σ.sessionCounter

/-- Mirrors `hasVoted` (source lines 372-378): a bare storage read with no
`sessionExists` modifier — it cannot fail and returns the default `false`
for any slot never written. -/
def hasVoted (σ : CState) (sid idx user : Nat) : Bool :=
  (σ.votes sid idx user).submitted

/-- Mirrors `isOrganizer` (source lines 384-391). -/
def isOrganizer (σ : CState) (sid a : Nat) : Except Err Bool :=
  if (σ.sessions sid).organizer = 0 then .error .SessionNotFound
  else .ok ((σ.sessions sid).organizer = a)

/-- Mirrors `getSessionState` (source lines 396-403). -/
def getSessionState (σ : CState) (sid : Nat) : Except Err Nat :=
  if (σ.sessions sid).organizer = 0 then .error .SessionNotFound
  else .ok (stateCode (σ.sessions sid).state)

/-- Mirrors `isDecryptionRequested` (source lines 408-415). -/
def isDecryptionRequested (σ : CState) (sid : Nat) : Except Err Bool :=
  if (σ.sessions sid).organizer = 0 then .error .SessionNotFound
  else .ok (σ.decryptionRequested sid)

/-- Mirrors `getSessionTotal` (source lines 421-429): `sessionExists`, then the
setup-index `require`. -/
def getSessionTotal (σ : CState) (sid idx : Nat) : Except Err Cipher :=
  if (σ.sessions sid).organizer = 0 then .error .SessionNotFound
  else if ¬ idx < (σ.sessions sid).numSetups then .error .InvalidSetupIndex
  else .ok (σ.sessionTotals sid idx)

/-- Mirrors `getTagTotal` (source lines 436-445): `sessionExists`, the setup-index
`require`, then the tag-index `require`. -/
def getTagTotal (σ : CState) (sid idx tagIdx : Nat) : Except Err Cipher :=
  if (σ.sessions sid).organizer = 0 then .error .SessionNotFound
  else if ¬ idx < (σ.sessions sid).numSetups then .error .InvalidSetupIndex
  else if h : tagIdx < 5 then .ok (σ.tagTotals sid idx ⟨tagIdx, h⟩)
  else .error .InvalidTagIndex

/-- One state-mutating transaction against the contract. -/
inductive Op
  | create (sender now : Nat) (title description : String)
      (deadline numSetups : Nat) (equipmentNames : List String) (trackList : String)
  | submit (sender now sid idx : Nat) (r : Nat) (t : Fin 5 → Nat)
  | close (sender sid : Nat)
  | reveal (sender sid : Nat)
  | request (sender sid : Nat)
  | rankings (sid : Nat)

/-- The state after one transaction; a reverted transaction leaves the state
unchanged. -/
def applyOp (σ : CState) : Op → CState
  | .create sender now ti de dl ns names tl =>
    match createSession σ sender now ti de dl ns names tl with
    | .ok p => p.1
    | .error _ => σ
  | .submit sender now sid idx r t =>
    match submitVote σ sender now sid idx r t with
    | .ok σ' => σ'
    | .error _ => σ
  | .close sender sid =>
    match closeSession σ sender sid with
    | .ok σ' => σ'
    | .error _ => σ
  | .reveal sender sid =>
    match revealEquipment σ sender sid with
    | .ok σ' => σ'
    | .error _ => σ
  | .request sender sid =>
    match requestOrganizerDecryption σ sender sid with
    | .ok σ' => σ'
    | .error _ => σ
  | .rankings sid =>
    match computeRankings σ sid with
    | .ok σ' => σ'
    | .error _ => σ

/-- The state after a sequence of transactions. -/
def run (σ : CState) : List Op → CState
  | [] => σ
  | op :: ops => run (applyOp σ op) ops

/-- The ballots successfully folded into the (sid, idx) aggregate along a
trace: the admitted rating plaintext (16-bit) and the admitted tag
plaintexts (8-bit) of each successful `submitVote` for that pair, in
submission order. -/
def foldedBallots (σ : CState) (sid idx : Nat) :
    List Op → List (Nat × (Fin 5 → Nat))
  | [] => []
  | op :: ops =>
    match op with
    | .submit sender now sid' idx' r t =>
      match submitVote σ sender now sid' idx' r t with
      | .ok σ' =>
        if sid' = sid ∧ idx' = idx then
          (r % 2 ^ 16, fun j => t j % 2 ^ 8) :: foldedBallots σ' sid idx ops
        else foldedBallots σ' sid idx ops
      | .error _ => foldedBallots σ sid idx ops
    | _ => foldedBallots (applyOp σ op) sid idx ops

/-- The number of successful `submitVote` transactions for a given
(session, setup, voter) triple along a trace. -/
def submitSuccesses (σ : CState) (sid idx v : Nat) : List Op → Nat
  | [] => 0
  | op :: ops =>
    (match op with
      | .submit sender now sid' idx' r t =>
        match submitVote σ sender now sid' idx' r t with
        | .ok _ => if sid' = sid ∧ idx' = idx ∧ sender = v then 1 else 0
        | .error _ => 0
      | _ => 0) + submitSuccesses (applyOp σ op) sid idx v ops

/-- The number of successful `requestOrganizerDecryption` transactions for a
given session along a trace. -/
def requestSuccesses (σ : CState) (sid : Nat) : List Op → Nat
  | [] => 0
  | op :: ops =>
    (match op with
      | .request sender sid' =>
        match requestOrganizerDecryption σ sender sid' with
        | .ok _ => if sid' = sid then 1 else 0
        | .error _ => 0
      | _ => 0) + requestSuccesses (applyOp σ op) sid ops

/-- The six ciphertext handles of one stored ballot: the rating and the five
tags. -/
def ballotHandles (v : Vote) : List Nat :=
  [ v.rating.hdl, (v.tags 0).hdl, (v.tags 1).hdl, (v.tags 2).hdl,
    (v.tags 3).hdl, (v.tags 4).hdl ]

/-- The inductive invariant of reachable contract states: unallocated
storage is at its default, every stored handle is below the allocator,
distinct ballots use disjoint handles, a ballot handle occurs among aggregate
handles only at its own setup while that setup holds exactly one ballot,
decryption can only have been requested for non-active sessions, empty
aggregates hold the zero handle, and every capability grant belongs to the
contract, to a voter on their own ballot, or to the organizer on the
aggregates of a positive-count setup of a requested session. -/
structure Inv (σ : CState) : Prop where
  freshSessions : ∀ sid, σ.sessionCounter ≤ sid → σ.sessions sid = defaultSession
  freshVotes : ∀ sid idx v, σ.sessionCounter ≤ sid → σ.votes sid idx v = defaultVote
  freshRequested : ∀ sid, σ.sessionCounter ≤ sid → σ.decryptionRequested sid = false
  ballotBound : ∀ sid idx v, (σ.votes sid idx v).submitted = true →
      ∀ h ∈ ballotHandles (σ.votes sid idx v), h < σ.nextHandle
  aggBound : ∀ sid idx, 0 < σ.voteCounts sid idx →
      ∀ h ∈ aggHandles σ sid idx, h < σ.nextHandle
  ballotDisjoint : ∀ sid idx v sid' idx' v',
      (σ.votes sid idx v).submitted = true →
      (σ.votes sid' idx' v').submitted = true →
      ¬(sid = sid' ∧ idx = idx' ∧ v = v') →
      ∀ h ∈ ballotHandles (σ.votes sid idx v),
        h ∉ ballotHandles (σ.votes sid' idx' v')
  ballotAgg : ∀ sid idx v, (σ.votes sid idx v).submitted = true →
      ∀ h ∈ ballotHandles (σ.votes sid idx v),
      ∀ sid' idx', 0 < σ.voteCounts sid' idx' → h ∈ aggHandles σ sid' idx' →
        sid' = sid ∧ idx' = idx ∧ σ.voteCounts sid idx = 1
  requestedClosed : ∀ sid, σ.decryptionRequested sid = true →
      (σ.sessions sid).state ≠ .Active
  zeroAgg : ∀ sid idx, σ.voteCounts sid idx = 0 →
      σ.sessionTotals sid idx = cipherZero ∧ ∀ j, σ.tagTotals sid idx j = cipherZero
  aclChar : ∀ h p, σ.acl h p = true →
      p = .contract ∨
      (∃ sid idx v, (σ.votes sid idx v).submitted = true ∧
        h ∈ ballotHandles (σ.votes sid idx v) ∧ p = .addr v) ∨
      (∃ sid idx, σ.decryptionRequested sid = true ∧ 0 < σ.voteCounts sid idx ∧
        h ∈ aggHandles σ sid idx ∧ p = .addr (σ.sessions sid).organizer)

/-- Relation between a start state `σ`, an end state `σr`, and the list `L` of
ballots folded into the (sid, idx) aggregate in between: the counter advances
by `L.length`, and the running sums advance by the sums of `L` (with the
first-vote direct assignment when the counter starts at zero). -/
def AggSpec (σ σr : CState) (sid idx : Nat) (L : List (Nat × (Fin 5 → Nat))) : Prop :=
  σr.voteCounts sid idx = σ.voteCounts sid idx + L.length
  ∧ (0 < σ.voteCounts sid idx →
      (σr.sessionTotals sid idx).val =
        (σ.sessionTotals sid idx).val + (L.map Prod.fst).sum
      ∧ ∀ j, (σr.tagTotals sid idx j).val =
        (σ.tagTotals sid idx j).val + (L.map (fun b => b.2 j)).sum)
  ∧ (σ.voteCounts sid idx = 0 → L = [] →
      σr.sessionTotals sid idx = σ.sessionTotals sid idx
      ∧ ∀ j, σr.tagTotals sid idx j = σ.tagTotals sid idx j)
  ∧ (σ.voteCounts sid idx = 0 → L ≠ [] →
      (σr.sessionTotals sid idx).val = (L.map Prod.fst).sum
      ∧ ∀ j, (σr.tagTotals sid idx j).val = (L.map (fun b => b.2 j)).sum)

/-! ### Concrete fixtures for witnesses and counterexamples -/

/-- Tag vector [Bass, Midrange, Treble, Soundstage, Detail] = [1,0,1,1,0]. -/
def tagsA : Fin 5 → Nat := ![1, 0, 1, 1, 0]

/-- Tag vector [0,1,1,1,0]. -/
def tagsB : Fin 5 → Nat := ![0, 1, 1, 1, 0]

/-- A single session created by organizer 1 with two setups and deadline 100. -/
def opsCreate : List Op := [.create 1 0 "s" "d" 100 2 ["A", "B"] ""]

/-- The one-session trace with a single recorded vote by voter 2. -/
def opsOneVote : List Op := opsCreate ++ [.submit 2 0 0 0 8 tagsA]

/-- A closed, voted-on session whose aggregates the organizer requested. -/
def opsOneVoteRequested : List Op :=
  opsOneVote ++ [.close 1 0, .request 1 0]

/-- The state right after the witness creation on a fresh deployment. -/
def c8Created : CState := applyOp initState (Op.create 1 0 "s" "d" 100 2 ["A", "B"] "")

/-- Two voters' votes for setup 0, in one order. -/
def opsTwoVotes : List Op := opsOneVote ++ [.submit 3 0 0 0 6 tagsB]

/-- The same two votes in the opposite order. -/
def opsTwoVotesSwapped : List Op :=
  opsCreate ++ [.submit 3 0 0 0 6 tagsB, .submit 2 0 0 0 8 tagsA]

/-! ### Basic lemmas about storage updates and the access-control list -/

theorem upd_apply {β : Type} (f : Nat → β) (k v k' : _) :
    upd f k v k' = if k' = k then v else f k' := rfl

theorem upd2_apply {β : Type} (f : Nat → Nat → β) (k1 k2 : Nat) (v : β) (a b : Nat) :
    upd2 f k1 k2 v a b = if a = k1 ∧ b = k2 then v else f a b := rfl

theorem upd3_apply {β : Type} (f : Nat → Nat → Nat → β) (k1 k2 k3 : Nat) (v : β)
    (a b c : Nat) :
    upd3 f k1 k2 k3 v a b c = if a = k1 ∧ b = k2 ∧ c = k3 then v else f a b c := rfl

@[simp] theorem upd_self {β : Type} (f : Nat → β) (k : Nat) (v : β) :
    upd f k v k = v := by simp [upd]

@[simp] theorem upd_ne {β : Type} (f : Nat → β) (k : Nat) (v : β) (k' : Nat)
    (h : k' ≠ k) : upd f k v k' = f k' := by simp [upd, h]

@[simp] theorem upd2_self {β : Type} (f : Nat → Nat → β) (k1 k2 : Nat) (v : β) :
    upd2 f k1 k2 v k1 k2 = v := by simp [upd2]

@[simp] theorem upd2_ne {β : Type} (f : Nat → Nat → β) (k1 k2 : Nat) (v : β)
    (a b : Nat) (h : ¬ (a = k1 ∧ b = k2)) : upd2 f k1 k2 v a b = f a b := by
  simp [upd2, h]

@[simp] theorem upd3_self {β : Type} (f : Nat → Nat → Nat → β) (k1 k2 k3 : Nat)
    (v : β) : upd3 f k1 k2 k3 v k1 k2 k3 = v := by simp [upd3]

@[simp] theorem upd3_ne {β : Type} (f : Nat → Nat → Nat → β) (k1 k2 k3 : Nat)
    (v : β) (a b c : Nat) (h : ¬ (a = k1 ∧ b = k2 ∧ c = k3)) :
    upd3 f k1 k2 k3 v a b c = f a b c := by simp [upd3, h]

theorem aclAllow_true_iff (a : Acl) (h : Nat) (p : Principal) (h' : Nat)
    (p' : Principal) :
    aclAllow a h p h' p' = true ↔ a h' p' = true ∨ (h' = h ∧ p' = p) := by
  unfold aclAllow
  split_ifs with hc
  · simp [hc]
  · simp [hc]

theorem aclAllowAll_true_iff (gs : List (Nat × Principal)) (a : Acl) (h : Nat)
    (p : Principal) :
    aclAllowAll a gs h p = true ↔ a h p = true ∨ (h, p) ∈ gs := by
  induction gs generalizing a with
  | nil => simp [aclAllowAll]
  | cons g gs ih =>
    simp only [aclAllowAll, ih, aclAllow_true_iff, List.mem_cons]
    constructor
    · rintro ((ha | ⟨rfl, rfl⟩) | hm)
      · exact Or.inl ha
      · exact Or.inr (Or.inl rfl)
      · exact Or.inr (Or.inr hm)
    · rintro (ha | (hg | hm))
      · exact Or.inl (Or.inl ha)
      · cases hg
        exact Or.inl (Or.inr ⟨rfl, rfl⟩)
      · exact Or.inr hm

/-! ### Reduction of `applyOp` to the individual operations -/

theorem applyOp_create (σ : CState) (sender now : Nat) (ti de : String)
    (dl ns : Nat) (names : List String) (tl : String) :
    applyOp σ (.create sender now ti de dl ns names tl) =
      match createSession σ sender now ti de dl ns names tl with
      | .ok p => p.1
      | .error _ => σ := rfl

theorem applyOp_submit (σ : CState) (sender now sid idx r : Nat) (t : Fin 5 → Nat) :
    applyOp σ (.submit sender now sid idx r t) =
      match submitVote σ sender now sid idx r t with
      | .ok σ' => σ'
      | .error _ => σ := rfl

theorem applyOp_close (σ : CState) (sender sid : Nat) :
    applyOp σ (.close sender sid) =
      match closeSession σ sender sid with
      | .ok σ' => σ'
      | .error _ => σ := rfl

theorem applyOp_reveal (σ : CState) (sender sid : Nat) :
    applyOp σ (.reveal sender sid) =
      match revealEquipment σ sender sid with
      | .ok σ' => σ'
      | .error _ => σ := rfl

theorem applyOp_request (σ : CState) (sender sid : Nat) :
    applyOp σ (.request sender sid) =
      match requestOrganizerDecryption σ sender sid with
      | .ok σ' => σ'
      | .error _ => σ := rfl

theorem applyOp_rankings (σ : CState) (sid : Nat) :
    applyOp σ (.rankings sid) = σ := by
  show (match computeRankings σ sid with
    | .ok σ' => σ'
    | .error _ => σ) = σ
  unfold computeRankings
  split_ifs <;> rfl

/-! ### Case characterizations of the mutating operations -/

theorem createSession_cases (σ : CState) (sender now : Nat) (ti de : String)
    (dl ns : Nat) (names : List String) (tl : String) :
    (∃ e, createSession σ sender now ti de dl ns names tl = .error e) ∨
    (now < dl ∧ 2 ≤ ns ∧ ns ≤ 10 ∧ names.length = ns ∧
      σ.sessionCounter + 1 < 2 ^ 256 ∧
      createSession σ sender now ti de dl ns names tl =
        .ok ({ σ with
          sessionCounter := σ.sessionCounter + 1
          sessions := upd σ.sessions σ.sessionCounter
            ⟨sender, ti, de, dl, .Active, ns, names, tl⟩ }, σ.sessionCounter)) := by
  unfold createSession
  split_ifs with h1 h2 h3 h4 <;>
    first
      | exact Or.inl ⟨_, rfl⟩
      | exact Or.inr ⟨h1, h2.1, h2.2, h3, h4, rfl⟩

theorem submitVote_cases (σ : CState) (sender now sid idx r : Nat) (t : Fin 5 → Nat) :
    (∃ e, submitVote σ sender now sid idx r t = .error e) ∨
    ((σ.sessions sid).organizer ≠ 0 ∧ (σ.sessions sid).state = .Active ∧
      now ≤ (σ.sessions sid).deadline ∧ idx < (σ.sessions sid).numSetups ∧
      (σ.votes sid idx sender).submitted = false ∧
      σ.voteCounts sid idx + 1 < 2 ^ 16 ∧
      submitVote σ sender now sid idx r t = .ok (submitCore σ sender sid idx r t)) := by
  unfold submitVote
  split_ifs with h1 h2 h3 h4 h5 h6 <;>
    first
      | exact Or.inl ⟨_, rfl⟩
      | exact Or.inr ⟨h1, h2, h3, h4, by simpa using h5, h6, rfl⟩

theorem closeSession_cases (σ : CState) (sender sid : Nat) :
    (∃ e, closeSession σ sender sid = .error e) ∨
    ((σ.sessions sid).organizer ≠ 0 ∧ (σ.sessions sid).organizer = sender ∧
      (σ.sessions sid).state = .Active ∧
      closeSession σ sender sid =
        .ok { σ with
          sessions := upd σ.sessions sid { σ.sessions sid with state := .Closed } }) := by
  unfold closeSession
  split_ifs with h1 h2 h3 <;>
    first
      | exact Or.inl ⟨_, rfl⟩
      | exact Or.inr ⟨h1, h2, h3, rfl⟩

theorem revealEquipment_cases (σ : CState) (sender sid : Nat) :
    (∃ e, revealEquipment σ sender sid = .error e) ∨
    ((σ.sessions sid).organizer ≠ 0 ∧ (σ.sessions sid).organizer = sender ∧
      (σ.sessions sid).state = .Closed ∧
      revealEquipment σ sender sid =
        .ok { σ with
          sessions := upd σ.sessions sid { σ.sessions sid with state := .Revealed } }) := by
  unfold revealEquipment
  split_ifs with h1 h2 h3 <;>
    first
      | exact Or.inl ⟨_, rfl⟩
      | exact Or.inr ⟨h1, h2, h3, rfl⟩

theorem requestOrganizerDecryption_cases (σ : CState) (sender sid : Nat) :
    (∃ e, requestOrganizerDecryption σ sender sid = .error e) ∨
    ((σ.sessions sid).organizer ≠ 0 ∧ (σ.sessions sid).organizer = sender ∧
      (σ.sessions sid).state = .Closed ∧ σ.decryptionRequested sid = false ∧
      requestOrganizerDecryption σ sender sid =
        .ok { σ with
          decryptionRequested := upd σ.decryptionRequested sid true
          acl := aclAllowAll σ.acl
            (decryptionGrants σ sid sender (σ.sessions sid).numSetups) }) := by
  unfold requestOrganizerDecryption
  split_ifs with h1 h2 h3 h4 <;>
    first
      | exact Or.inl ⟨_, rfl⟩
      | exact Or.inr ⟨h1, h2, h3, by simpa using h4, rfl⟩

/-! ### Projections of `submitCore` -/

theorem submitCore_sessions (σ : CState) (sender sid idx r : Nat) (t : Fin 5 → Nat) :
    (submitCore σ sender sid idx r t).sessions = σ.sessions := rfl

theorem submitCore_sessionCounter (σ : CState) (sender sid idx r : Nat)
    (t : Fin 5 → Nat) :
    (submitCore σ sender sid idx r t).sessionCounter = σ.sessionCounter := rfl

theorem submitCore_decryptionRequested (σ : CState) (sender sid idx r : Nat)
    (t : Fin 5 → Nat) :
    (submitCore σ sender sid idx r t).decryptionRequested = σ.decryptionRequested := rfl

theorem submitCore_votes (σ : CState) (sender sid idx r : Nat) (t : Fin 5 → Nat) :
    (submitCore σ sender sid idx r t).votes =
      upd3 σ.votes sid idx sender
        ⟨⟨σ.nextHandle, r % 2 ^ 16⟩,
         fun j => ⟨σ.nextHandle + 1 + j.val, t j % 2 ^ 8⟩, true⟩ := rfl

theorem submitCore_voteCounts (σ : CState) (sender sid idx r : Nat) (t : Fin 5 → Nat) :
    (submitCore σ sender sid idx r t).voteCounts =
      upd2 σ.voteCounts sid idx (σ.voteCounts sid idx + 1) := rfl

theorem submitCore_sessionTotals (σ : CState) (sender sid idx r : Nat)
    (t : Fin 5 → Nat) :
    (submitCore σ sender sid idx r t).sessionTotals =
      upd2 σ.sessionTotals sid idx
        (if σ.voteCounts sid idx = 0 then ⟨σ.nextHandle, r % 2 ^ 16⟩
         else ⟨σ.nextHandle + 6, (σ.sessionTotals sid idx).val + r % 2 ^ 16⟩) := rfl

theorem submitCore_tagTotals (σ : CState) (sender sid idx r : Nat) (t : Fin 5 → Nat) :
    (submitCore σ sender sid idx r t).tagTotals =
      upd2 σ.tagTotals sid idx
        (if σ.voteCounts sid idx = 0 then
          fun j => ⟨σ.nextHandle + 1 + j.val, t j % 2 ^ 8⟩
         else
          fun j => ⟨σ.nextHandle + 7 + j.val,
            (σ.tagTotals sid idx j).val + t j % 2 ^ 8⟩) := rfl

theorem submitCore_nextHandle (σ : CState) (sender sid idx r : Nat) (t : Fin 5 → Nat) :
    (submitCore σ sender sid idx r t).nextHandle =
      if σ.voteCounts sid idx = 0 then σ.nextHandle + 6 else σ.nextHandle + 12 := rfl

theorem submitCore_acl (σ : CState) (sender sid idx r : Nat) (t : Fin 5 → Nat) :
    (submitCore σ sender sid idx r t).acl =
      aclAllowAll σ.acl
        (submitGrants sender ⟨σ.nextHandle, r % 2 ^ 16⟩
          (fun j => ⟨σ.nextHandle + 1 + j.val, t j % 2 ^ 8⟩)
          (if σ.voteCounts sid idx = 0 then ⟨σ.nextHandle, r % 2 ^ 16⟩
           else ⟨σ.nextHandle + 6, (σ.sessionTotals sid idx).val + r % 2 ^ 16⟩)
          (if σ.voteCounts sid idx = 0 then
            fun j => ⟨σ.nextHandle + 1 + j.val, t j % 2 ^ 8⟩
           else
            fun j => ⟨σ.nextHandle + 7 + j.val,
              (σ.tagTotals sid idx j).val + t j % 2 ^ 8⟩)) := rfl

/-! ### Membership characterizations for grant lists and handle lists -/

theorem mem_ballotHandles (v : Vote) (h : Nat) :
    h ∈ ballotHandles v ↔
      h = v.rating.hdl ∨ h = (v.tags 0).hdl ∨ h = (v.tags 1).hdl ∨
      h = (v.tags 2).hdl ∨ h = (v.tags 3).hdl ∨ h = (v.tags 4).hdl := by
  simp [ballotHandles]

theorem mem_aggHandles (σ : CState) (sid idx h : Nat) :
    h ∈ aggHandles σ sid idx ↔
      h = (σ.sessionTotals sid idx).hdl ∨ h = (σ.tagTotals sid idx 0).hdl ∨
      h = (σ.tagTotals sid idx 1).hdl ∨ h = (σ.tagTotals sid idx 2).hdl ∨
      h = (σ.tagTotals sid idx 3).hdl ∨ h = (σ.tagTotals sid idx 4).hdl := by
  simp [aggHandles]

/-- The six fresh ballot handles of a new `submitCore` ballot form the
contiguous range `n .. n+5`. -/
theorem mem_ballotHandles_fresh (n rv : Nat) (tv : Fin 5 → Nat) (h : Nat) :
    h ∈ ballotHandles ⟨⟨n, rv⟩, fun j => ⟨n + 1 + j.val, tv j⟩, true⟩ ↔
      n ≤ h ∧ h ≤ n + 5 := by
  simp only [mem_ballotHandles]
  show h = n ∨ h = n + 1 + 0 ∨ h = n + 1 + 1 ∨ h = n + 1 + 2 ∨
    h = n + 1 + 3 ∨ h = n + 1 + 4 ↔ n ≤ h ∧ h ≤ n + 5
  omega

set_option maxHeartbeats 1000000 in
theorem mem_setupGrants (σ : CState) (sid i sender h : Nat) (p : Principal) :
    (h, p) ∈ setupGrants σ sid i sender ↔
      h ∈ aggHandles σ sid i ∧ (p = .addr sender ∨ p = .contract) := by
  simp only [setupGrants, aggHandles, List.mem_cons, List.not_mem_nil, or_false,
    Prod.mk.injEq]
  tauto

theorem mem_decryptionGrants (σ : CState) (sid sender : Nat) (n h : Nat)
    (p : Principal) :
    (h, p) ∈ decryptionGrants σ sid sender n ↔
      ∃ i, i < n ∧ 0 < σ.voteCounts sid i ∧ (h, p) ∈ setupGrants σ sid i sender := by
  induction n with
  | zero => simp [decryptionGrants]
  | succ n ih =>
    simp only [decryptionGrants, List.mem_append, ih]
    constructor
    · rintro (⟨i, hi, hc, hm⟩ | hm)
      · exact ⟨i, Nat.lt_succ_of_lt hi, hc, hm⟩
      · split_ifs at hm with hc
        · exact ⟨n, Nat.lt_succ_self n, hc, hm⟩
        · simp at hm
    · rintro ⟨i, hi, hc, hm⟩
      rcases Nat.lt_succ_iff_lt_or_eq.mp hi with hi' | rfl
      · exact Or.inl ⟨i, hi', hc, hm⟩
      · right
        rw [if_pos hc]
        exact hm

set_option maxHeartbeats 1000000 in
theorem mem_ballotGrants (sender : Nat) (encRating : Cipher)
    (encTags : Fin 5 → Cipher) (h : Nat) (p : Principal) :
    (h, p) ∈ ballotGrants sender encRating encTags ↔
      h ∈ ballotHandles ⟨encRating, encTags, true⟩ ∧
        (p = .addr sender ∨ p = .contract) := by
  simp only [ballotGrants, ballotHandles, List.mem_cons, List.not_mem_nil,
    or_false, Prod.mk.injEq]
  tauto

theorem mem_totalsGrants (newTotal : Cipher) (newTagTotals : Fin 5 → Cipher)
    (h : Nat) (p : Principal) :
    (h, p) ∈ totalsGrants newTotal newTagTotals ↔
      p = .contract ∧
        (h = newTotal.hdl ∨ h = (newTagTotals 0).hdl ∨ h = (newTagTotals 1).hdl ∨
         h = (newTagTotals 2).hdl ∨ h = (newTagTotals 3).hdl ∨
         h = (newTagTotals 4).hdl) := by
  simp only [totalsGrants, List.mem_cons, List.not_mem_nil, or_false,
    Prod.mk.injEq]
  tauto

theorem mem_submitGrants (sender : Nat) (encRating : Cipher)
    (encTags : Fin 5 → Cipher) (newTotal : Cipher) (newTagTotals : Fin 5 → Cipher)
    (h : Nat) (p : Principal) :
    (h, p) ∈ submitGrants sender encRating encTags newTotal newTagTotals ↔
      (h ∈ ballotHandles ⟨encRating, encTags, true⟩ ∧
        (p = .addr sender ∨ p = .contract)) ∨
      (p = .contract ∧
        (h = newTotal.hdl ∨ h = (newTagTotals 0).hdl ∨ h = (newTagTotals 1).hdl ∨
         h = (newTagTotals 2).hdl ∨ h = (newTagTotals 3).hdl ∨
         h = (newTagTotals 4).hdl)) := by
  rw [submitGrants, List.mem_append, mem_ballotGrants, mem_totalsGrants]

/-! ### Case characterizations of `applyOp` -/

theorem applyOp_create_cases (σ : CState) (sender now : Nat) (ti de : String)
    (dl ns : Nat) (names : List String) (tl : String) :
    applyOp σ (.create sender now ti de dl ns names tl) = σ ∨
    (now < dl ∧ 2 ≤ ns ∧ ns ≤ 10 ∧ names.length = ns ∧
      σ.sessionCounter + 1 < 2 ^ 256 ∧
      applyOp σ (.create sender now ti de dl ns names tl) =
        { σ with
          sessionCounter := σ.sessionCounter + 1
          sessions := upd σ.sessions σ.sessionCounter
            ⟨sender, ti, de, dl, .Active, ns, names, tl⟩ }) := by
  rcases createSession_cases σ sender now ti de dl ns names tl with ⟨e, he⟩ |
    ⟨h1, h2, h3, h4, h5, hok⟩
  · left
    rw [applyOp_create, he]
  · right
    exact ⟨h1, h2, h3, h4, h5, by rw [applyOp_create, hok]⟩

theorem applyOp_submit_cases (σ : CState) (sender now sid idx r : Nat)
    (t : Fin 5 → Nat) :
    applyOp σ (.submit sender now sid idx r t) = σ ∨
    ((σ.sessions sid).organizer ≠ 0 ∧ (σ.sessions sid).state = .Active ∧
      now ≤ (σ.sessions sid).deadline ∧ idx < (σ.sessions sid).numSetups ∧
      (σ.votes sid idx sender).submitted = false ∧
      σ.voteCounts sid idx + 1 < 2 ^ 16 ∧
      applyOp σ (.submit sender now sid idx r t) = submitCore σ sender sid idx r t) := by
  rcases submitVote_cases σ sender now sid idx r t with ⟨e, he⟩ |
    ⟨h1, h2, h3, h4, h5, h6, hok⟩
  · left
    rw [applyOp_submit, he]
  · right
    exact ⟨h1, h2, h3, h4, h5, h6, by rw [applyOp_submit, hok]⟩

theorem applyOp_close_cases (σ : CState) (sender sid : Nat) :
    applyOp σ (.close sender sid) = σ ∨
    ((σ.sessions sid).organizer ≠ 0 ∧ (σ.sessions sid).organizer = sender ∧
      (σ.sessions sid).state = .Active ∧
      applyOp σ (.close sender sid) =
        { σ with
          sessions := upd σ.sessions sid { σ.sessions sid with state := .Closed } }) := by
  rcases closeSession_cases σ sender sid with ⟨e, he⟩ | ⟨h1, h2, h3, hok⟩
  · left
    rw [applyOp_close, he]
  · right
    exact ⟨h1, h2, h3, by rw [applyOp_close, hok]⟩

theorem applyOp_reveal_cases (σ : CState) (sender sid : Nat) :
    applyOp σ (.reveal sender sid) = σ ∨
    ((σ.sessions sid).organizer ≠ 0 ∧ (σ.sessions sid).organizer = sender ∧
      (σ.sessions sid).state = .Closed ∧
      applyOp σ (.reveal sender sid) =
        { σ with
          sessions := upd σ.sessions sid { σ.sessions sid with state := .Revealed } }) := by
  rcases revealEquipment_cases σ sender sid with ⟨e, he⟩ | ⟨h1, h2, h3, hok⟩
  · left
    rw [applyOp_reveal, he]
  · right
    exact ⟨h1, h2, h3, by rw [applyOp_reveal, hok]⟩

theorem applyOp_request_cases (σ : CState) (sender sid : Nat) :
    applyOp σ (.request sender sid) = σ ∨
    ((σ.sessions sid).organizer ≠ 0 ∧ (σ.sessions sid).organizer = sender ∧
      (σ.sessions sid).state = .Closed ∧ σ.decryptionRequested sid = false ∧
      applyOp σ (.request sender sid) =
        { σ with
          decryptionRequested := upd σ.decryptionRequested sid true
          acl := aclAllowAll σ.acl
            (decryptionGrants σ sid sender (σ.sessions sid).numSetups) }) := by
  rcases requestOrganizerDecryption_cases σ sender sid with ⟨e, he⟩ |
    ⟨h1, h2, h3, h4, hok⟩
  · left
    rw [applyOp_request, he]
  · right
    exact ⟨h1, h2, h3, h4, by rw [applyOp_request, hok]⟩

/-! ### Frame and monotonicity lemmas for `applyOp` -/

theorem sessionCounter_applyOp_le (σ : CState) (op : Op) :
    σ.sessionCounter ≤ (applyOp σ op).sessionCounter := by
  cases op with
  | create s n ti de dl ns names tl =>
    rcases applyOp_create_cases σ s n ti de dl ns names tl with h |
      ⟨_, _, _, _, _, h⟩ <;> rw [h]
    exact Nat.le_succ _
  | submit s n sid idx r t =>
    rcases applyOp_submit_cases σ s n sid idx r t with h |
      ⟨_, _, _, _, _, _, h⟩ <;> rw [h]
    exact le_refl _
  | close s sid =>
    rcases applyOp_close_cases σ s sid with h | ⟨_, _, _, h⟩ <;> rw [h]
  | reveal s sid =>
    rcases applyOp_reveal_cases σ s sid with h | ⟨_, _, _, h⟩ <;> rw [h]
  | request s sid =>
    rcases applyOp_request_cases σ s sid with h | ⟨_, _, _, _, h⟩ <;> rw [h]
  | rankings sid =>
    rw [applyOp_rankings]

theorem sessionCounter_run_le (σ : CState) (ops : List Op) :
    σ.sessionCounter ≤ (run σ ops).sessionCounter := by
  induction ops generalizing σ with
  | nil => exact le_refl _
  | cons op ops ih =>
    exact le_trans (sessionCounter_applyOp_le σ op) (ih (applyOp σ op))

/-- All session fields except `state` are preserved by any transaction, for
any already-allocated session id. -/
theorem sessionFields_applyOp (σ : CState) (op : Op) (sid : Nat)
    (hlt : sid < σ.sessionCounter) :
    ((applyOp σ op).sessions sid).organizer = (σ.sessions sid).organizer ∧
    ((applyOp σ op).sessions sid).deadline = (σ.sessions sid).deadline ∧
    ((applyOp σ op).sessions sid).numSetups = (σ.sessions sid).numSetups ∧
    ((applyOp σ op).sessions sid).equipmentNames = (σ.sessions sid).equipmentNames := by
  cases op with
  | create s n ti de dl ns names tl =>
    rcases applyOp_create_cases σ s n ti de dl ns names tl with h |
      ⟨_, _, _, _, _, h⟩ <;> rw [h]
    · exact ⟨rfl, rfl, rfl, rfl⟩
    · simp [upd_apply, Nat.ne_of_lt hlt]
  | submit s n sid' idx r t =>
    rcases applyOp_submit_cases σ s n sid' idx r t with h |
      ⟨_, _, _, _, _, _, h⟩ <;> rw [h]
    · exact ⟨rfl, rfl, rfl, rfl⟩
    · rw [submitCore_sessions]
      exact ⟨rfl, rfl, rfl, rfl⟩
  | close s sid' =>
    rcases applyOp_close_cases σ s sid' with h | ⟨_, _, _, h⟩ <;> rw [h]
    · exact ⟨rfl, rfl, rfl, rfl⟩
    · by_cases hs : sid = sid'
      · subst hs
        simp [upd_apply]
      · simp [upd_apply, hs]
  | reveal s sid' =>
    rcases applyOp_reveal_cases σ s sid' with h | ⟨_, _, _, h⟩ <;> rw [h]
    · exact ⟨rfl, rfl, rfl, rfl⟩
    · by_cases hs : sid = sid'
      · subst hs
        simp [upd_apply]
      · simp [upd_apply, hs]
  | request s sid' =>
    rcases applyOp_request_cases σ s sid' with h | ⟨_, _, _, _, h⟩ <;> rw [h]
    · exact ⟨rfl, rfl, rfl, rfl⟩
    · exact ⟨rfl, rfl, rfl, rfl⟩
  | rankings sid' =>
    rw [applyOp_rankings]
    exact ⟨rfl, rfl, rfl, rfl⟩

/-- All session fields except `state` are preserved by any trace, for any
already-allocated session id. -/
theorem sessionFields_run (σ : CState) (ops : List Op) (sid : Nat)
    (hlt : sid < σ.sessionCounter) :
    ((run σ ops).sessions sid).organizer = (σ.sessions sid).organizer ∧
    ((run σ ops).sessions sid).deadline = (σ.sessions sid).deadline ∧
    ((run σ ops).sessions sid).numSetups = (σ.sessions sid).numSetups ∧
    ((run σ ops).sessions sid).equipmentNames = (σ.sessions sid).equipmentNames := by
  induction ops generalizing σ with
  | nil => exact ⟨rfl, rfl, rfl, rfl⟩
  | cons op ops ih =>
    have h1 := sessionFields_applyOp σ op sid hlt
    have h2 := ih (applyOp σ op) (lt_of_lt_of_le hlt (sessionCounter_applyOp_le σ op))
    exact ⟨h2.1.trans h1.1, h2.2.1.trans h1.2.1, h2.2.2.1.trans h1.2.2.1,
      h2.2.2.2.trans h1.2.2.2⟩

/-- The submitted flag of a stored ballot is never cleared. -/
theorem submitted_applyOp_mono (σ : CState) (op : Op) (sid idx v : Nat)
    (h : (σ.votes sid idx v).submitted = true) :
    ((applyOp σ op).votes sid idx v).submitted = true := by
  cases op with
  | create s n ti de dl ns names tl =>
    rcases applyOp_create_cases σ s n ti de dl ns names tl with hc |
      ⟨_, _, _, _, _, hc⟩ <;> rw [hc] <;> exact h
  | submit s n sid' idx' r t =>
    rcases applyOp_submit_cases σ s n sid' idx' r t with hc |
      ⟨_, _, _, _, _, _, hc⟩ <;> rw [hc]
    · exact h
    · rw [submitCore_votes, upd3_apply]
      split_ifs with hk
      · rfl
      · exact h
  | close s sid' =>
    rcases applyOp_close_cases σ s sid' with hc | ⟨_, _, _, hc⟩ <;> rw [hc] <;>
      exact h
  | reveal s sid' =>
    rcases applyOp_reveal_cases σ s sid' with hc | ⟨_, _, _, hc⟩ <;> rw [hc] <;>
      exact h
  | request s sid' =>
    rcases applyOp_request_cases σ s sid' with hc | ⟨_, _, _, _, hc⟩ <;>
      rw [hc] <;> exact h
  | rankings sid' =>
    rw [applyOp_rankings]
    exact h

/-- The decryption-requested flag of a session is never cleared. -/
theorem requested_applyOp_mono (σ : CState) (op : Op) (sid : Nat)
    (h : σ.decryptionRequested sid = true) :
    (applyOp σ op).decryptionRequested sid = true := by
  cases op with
  | create s n ti de dl ns names tl =>
    rcases applyOp_create_cases σ s n ti de dl ns names tl with hc |
      ⟨_, _, _, _, _, hc⟩ <;> rw [hc] <;> exact h
  | submit s n sid' idx' r t =>
    rcases applyOp_submit_cases σ s n sid' idx' r t with hc |
      ⟨_, _, _, _, _, _, hc⟩ <;> rw [hc]
    · exact h
    · exact h
  | close s sid' =>
    rcases applyOp_close_cases σ s sid' with hc | ⟨_, _, _, hc⟩ <;> rw [hc] <;>
      exact h
  | reveal s sid' =>
    rcases applyOp_reveal_cases σ s sid' with hc | ⟨_, _, _, hc⟩ <;> rw [hc] <;>
      exact h
  | request s sid' =>
    rcases applyOp_request_cases σ s sid' with hc | ⟨_, _, _, _, hc⟩ <;> rw [hc]
    · exact h
    · show upd σ.decryptionRequested sid' true sid = true
      rw [upd_apply]
      split_ifs with hk
      · rfl
      · exact h
  | rankings sid' =>
    rw [applyOp_rankings]
    exact h

/-! ### The reachability invariant -/

theorem upd_state_organizer (f : Nat → Session) (k : Nat) (st : SessionState)
    (sid : Nat) :
    (upd f k { f k with state := st } sid).organizer = (f sid).organizer := by
  rw [upd_apply]
  split_ifs with hs
  · subst hs
    rfl
  · rfl

theorem organizer_lt_counter (σ : CState) (sid : Nat) (hI : Inv σ)
    (h : (σ.sessions sid).organizer ≠ 0) : sid < σ.sessionCounter := by
  by_contra hge
  push_neg at hge
  rw [hI.freshSessions sid hge] at h
  exact h rfl

theorem requested_lt_counter (σ : CState) (sid : Nat) (hI : Inv σ)
    (h : σ.decryptionRequested sid = true) : sid < σ.sessionCounter := by
  by_contra hge
  push_neg at hge
  rw [hI.freshRequested sid hge] at h
  exact Bool.false_ne_true h

theorem submitted_lt_counter (σ : CState) (sid idx v : Nat) (hI : Inv σ)
    (h : (σ.votes sid idx v).submitted = true) : sid < σ.sessionCounter := by
  by_contra hge
  push_neg at hge
  rw [hI.freshVotes sid idx v hge] at h
  simp [defaultVote] at h

theorem inv_init : Inv initState := by
  refine ⟨?_, ?_, ?_, ?_, ?_, ?_, ?_, ?_, ?_, ?_⟩
  · intro sid _
    rfl
  · intro sid idx v _
    rfl
  · intro sid _
    rfl
  · intro sid idx v hsub
    simp [initState, defaultVote] at hsub
  · intro sid idx hc
    simp [initState] at hc
  · intro sid idx v sid' idx' v' hsub
    simp [initState, defaultVote] at hsub
  · intro sid idx v hsub
    simp [initState, defaultVote] at hsub
  · intro sid hreq
    simp [initState] at hreq
  · intro sid idx _
    exact ⟨rfl, fun _ => rfl⟩
  · intro h p hacl
    simp [initState] at hacl

theorem inv_create (σ : CState) (s n : Nat) (ti de : String) (dl ns : Nat)
    (names : List String) (tl : String) (hI : Inv σ) :
    Inv (applyOp σ (.create s n ti de dl ns names tl)) := by
  rcases applyOp_create_cases σ s n ti de dl ns names tl with h |
    ⟨_, _, _, _, _, h⟩
  · rw [h]
    exact hI
  · rw [h]
    refine ⟨?_, ?_, ?_, ?_, ?_, ?_, ?_, ?_, ?_, ?_⟩
    · intro sid hs
      have hs' : σ.sessionCounter + 1 ≤ sid := hs
      show upd σ.sessions σ.sessionCounter _ sid = defaultSession
      rw [upd_ne _ _ _ _ (by omega)]
      exact hI.freshSessions sid (by omega)
    · intro sid idx v hs
      have hs' : σ.sessionCounter + 1 ≤ sid := hs
      exact hI.freshVotes sid idx v (by omega)
    · intro sid hs
      have hs' : σ.sessionCounter + 1 ≤ sid := hs
      exact hI.freshRequested sid (by omega)
    · intro sid idx v hsub hh hm
      exact hI.ballotBound sid idx v hsub hh hm
    · intro sid idx hc hh hm
      exact hI.aggBound sid idx hc hh hm
    · intro sid idx v sid' idx' v' hsub hsub' hne hh hm
      exact hI.ballotDisjoint sid idx v sid' idx' v' hsub hsub' hne hh hm
    · intro sid idx v hsub hh hm sid' idx' hc hm'
      exact hI.ballotAgg sid idx v hsub hh hm sid' idx' hc hm'
    · intro sid hreq
      have hlt := requested_lt_counter σ sid hI hreq
      show (upd σ.sessions σ.sessionCounter _ sid).state ≠ .Active
      rw [upd_ne _ _ _ _ (Nat.ne_of_lt hlt)]
      exact hI.requestedClosed sid hreq
    · intro sid idx hc
      exact hI.zeroAgg sid idx hc
    · intro hh p hacl
      rcases hI.aclChar hh p hacl with h1 | ⟨sid, idx, v, hsub, hm, hp⟩ |
        ⟨sid, idx, hreq, hc, hm, hp⟩
      · exact Or.inl h1
      · exact Or.inr (Or.inl ⟨sid, idx, v, hsub, hm, hp⟩)
      · refine Or.inr (Or.inr ⟨sid, idx, hreq, hc, ?_, ?_⟩)
        · exact hm
        · have hlt := requested_lt_counter σ sid hI hreq
          show p = .addr ((upd σ.sessions σ.sessionCounter _ sid).organizer)
          rw [upd_ne _ _ _ _ (Nat.ne_of_lt hlt)]
          exact hp

theorem inv_close (σ : CState) (s sid0 : Nat) (hI : Inv σ) :
    Inv (applyOp σ (.close s sid0)) := by
  rcases applyOp_close_cases σ s sid0 with h | ⟨h1, _, _, h⟩
  · rw [h]
    exact hI
  · rw [h]
    have hlt := organizer_lt_counter σ sid0 hI h1
    refine ⟨?_, ?_, ?_, ?_, ?_, ?_, ?_, ?_, ?_, ?_⟩
    · intro sid hs
      have hs' : σ.sessionCounter ≤ sid := hs
      show upd σ.sessions sid0 _ sid = defaultSession
      rw [upd_ne _ _ _ _ (by omega)]
      exact hI.freshSessions sid hs'
    · intro sid idx v hs
      exact hI.freshVotes sid idx v hs
    · intro sid hs
      exact hI.freshRequested sid hs
    · intro sid idx v hsub hh hm
      exact hI.ballotBound sid idx v hsub hh hm
    · intro sid idx hc hh hm
      exact hI.aggBound sid idx hc hh hm
    · intro sid idx v sid' idx' v' hsub hsub' hne hh hm
      exact hI.ballotDisjoint sid idx v sid' idx' v' hsub hsub' hne hh hm
    · intro sid idx v hsub hh hm sid' idx' hc hm'
      exact hI.ballotAgg sid idx v hsub hh hm sid' idx' hc hm'
    · intro sid hreq
      show (upd σ.sessions sid0 _ sid).state ≠ .Active
      rw [upd_apply]
      split_ifs with hs
      · simp
      · exact hI.requestedClosed sid hreq
    · intro sid idx hc
      exact hI.zeroAgg sid idx hc
    · intro hh p hacl
      rcases hI.aclChar hh p hacl with hc1 | ⟨sid, idx, v, hsub, hm, hp⟩ |
        ⟨sid, idx, hreq, hc, hm, hp⟩
      · exact Or.inl hc1
      · exact Or.inr (Or.inl ⟨sid, idx, v, hsub, hm, hp⟩)
      · refine Or.inr (Or.inr ⟨sid, idx, hreq, hc, ?_, ?_⟩)
        · exact hm
        · show p = .addr ((upd σ.sessions sid0 _ sid).organizer)
          rw [upd_state_organizer]
          exact hp

theorem inv_reveal (σ : CState) (s sid0 : Nat) (hI : Inv σ) :
    Inv (applyOp σ (.reveal s sid0)) := by
  rcases applyOp_reveal_cases σ s sid0 with h | ⟨h1, _, _, h⟩
  · rw [h]
    exact hI
  · rw [h]
    have hlt := organizer_lt_counter σ sid0 hI h1
    refine ⟨?_, ?_, ?_, ?_, ?_, ?_, ?_, ?_, ?_, ?_⟩
    · intro sid hs
      have hs' : σ.sessionCounter ≤ sid := hs
      show upd σ.sessions sid0 _ sid = defaultSession
      rw [upd_ne _ _ _ _ (by omega)]
      exact hI.freshSessions sid hs'
    · intro sid idx v hs
      exact hI.freshVotes sid idx v hs
    · intro sid hs
      exact hI.freshRequested sid hs
    · intro sid idx v hsub hh hm
      exact hI.ballotBound sid idx v hsub hh hm
    · intro sid idx hc hh hm
      exact hI.aggBound sid idx hc hh hm
    · intro sid idx v sid' idx' v' hsub hsub' hne hh hm
      exact hI.ballotDisjoint sid idx v sid' idx' v' hsub hsub' hne hh hm
    · intro sid idx v hsub hh hm sid' idx' hc hm'
      exact hI.ballotAgg sid idx v hsub hh hm sid' idx' hc hm'
    · intro sid hreq
      show (upd σ.sessions sid0 _ sid).state ≠ .Active
      rw [upd_apply]
      split_ifs with hs
      · simp
      · exact hI.requestedClosed sid hreq
    · intro sid idx hc
      exact hI.zeroAgg sid idx hc
    · intro hh p hacl
      rcases hI.aclChar hh p hacl with hc1 | ⟨sid, idx, v, hsub, hm, hp⟩ |
        ⟨sid, idx, hreq, hc, hm, hp⟩
      · exact Or.inl hc1
      · exact Or.inr (Or.inl ⟨sid, idx, v, hsub, hm, hp⟩)
      · refine Or.inr (Or.inr ⟨sid, idx, hreq, hc, ?_, ?_⟩)
        · exact hm
        · show p = .addr ((upd σ.sessions sid0 _ sid).organizer)
          rw [upd_state_organizer]
          exact hp

theorem inv_request (σ : CState) (s sid0 : Nat) (hI : Inv σ) :
    Inv (applyOp σ (.request s sid0)) := by
  rcases applyOp_request_cases σ s sid0 with h | ⟨h1, h2, h3, _, h⟩
  · rw [h]
    exact hI
  · rw [h]
    have hlt := organizer_lt_counter σ sid0 hI h1
    refine ⟨?_, ?_, ?_, ?_, ?_, ?_, ?_, ?_, ?_, ?_⟩
    · intro sid hs
      exact hI.freshSessions sid hs
    · intro sid idx v hs
      exact hI.freshVotes sid idx v hs
    · intro sid hs
      have hs' : σ.sessionCounter ≤ sid := hs
      show upd σ.decryptionRequested sid0 true sid = false
      rw [upd_ne _ _ _ _ (by omega)]
      exact hI.freshRequested sid hs'
    · intro sid idx v hsub hh hm
      exact hI.ballotBound sid idx v hsub hh hm
    · intro sid idx hc hh hm
      exact hI.aggBound sid idx hc hh hm
    · intro sid idx v sid' idx' v' hsub hsub' hne hh hm
      exact hI.ballotDisjoint sid idx v sid' idx' v' hsub hsub' hne hh hm
    · intro sid idx v hsub hh hm sid' idx' hc hm'
      exact hI.ballotAgg sid idx v hsub hh hm sid' idx' hc hm'
    · intro sid hreq
      show (σ.sessions sid).state ≠ .Active
      by_cases hs : sid = sid0
      · subst hs
        rw [h3]
        simp
      · have hreq' : σ.decryptionRequested sid = true := by
          have hr : upd σ.decryptionRequested sid0 true sid = true := hreq
          rw [upd_ne _ _ _ _ hs] at hr
          exact hr
        exact hI.requestedClosed sid hreq'
    · intro sid idx hc
      exact hI.zeroAgg sid idx hc
    · intro hh p hacl
      have hacl' : aclAllowAll σ.acl
          (decryptionGrants σ sid0 s (σ.sessions sid0).numSetups) hh p = true := hacl
      rcases (aclAllowAll_true_iff _ _ _ _).mp hacl' with hold | hnew
      · rcases hI.aclChar hh p hold with hc1 | ⟨sid, idx, v, hsub, hm, hp⟩ |
          ⟨sid, idx, hreq, hc, hm, hp⟩
        · exact Or.inl hc1
        · exact Or.inr (Or.inl ⟨sid, idx, v, hsub, hm, hp⟩)
        · refine Or.inr (Or.inr ⟨sid, idx, ?_, hc, ?_, hp⟩)
          · show upd σ.decryptionRequested sid0 true sid = true
            rw [upd_apply]
            split_ifs with hs
            · rfl
            · exact hreq
          · exact hm
      · rcases (mem_decryptionGrants σ sid0 s _ hh p).mp hnew with ⟨i, _, hci, hmem⟩
        rcases (mem_setupGrants σ sid0 i s hh p).mp hmem with ⟨hagg, hp | hp⟩
        · refine Or.inr (Or.inr ⟨sid0, i, ?_, hci, ?_, ?_⟩)
          · show upd σ.decryptionRequested sid0 true sid0 = true
            rw [upd_self]
          · exact hagg
          · rw [hp, h2]
        · exact Or.inl hp

theorem inv_rankings (σ : CState) (sid0 : Nat) (hI : Inv σ) :
    Inv (applyOp σ (.rankings sid0)) := by
  rw [applyOp_rankings]
  exact hI

/-! ### Pointwise lemmas about the `submitCore` state change -/

theorem submitCore_votes_self (σ : CState) (s sid0 idx0 r : Nat) (t : Fin 5 → Nat) :
    (submitCore σ s sid0 idx0 r t).votes sid0 idx0 s =
      ⟨⟨σ.nextHandle, r % 2 ^ 16⟩,
       fun j => ⟨σ.nextHandle + 1 + j.val, t j % 2 ^ 8⟩, true⟩ := by
  rw [submitCore_votes, upd3_self]

theorem submitCore_votes_other (σ : CState) (s sid0 idx0 r : Nat) (t : Fin 5 → Nat)
    (sid idx v : Nat) (hne : ¬ (sid = sid0 ∧ idx = idx0 ∧ v = s)) :
    (submitCore σ s sid0 idx0 r t).votes sid idx v = σ.votes sid idx v := by
  rw [submitCore_votes, upd3_ne _ _ _ _ _ _ _ _ hne]

theorem submitCore_counts_self (σ : CState) (s sid0 idx0 r : Nat) (t : Fin 5 → Nat) :
    (submitCore σ s sid0 idx0 r t).voteCounts sid0 idx0 =
      σ.voteCounts sid0 idx0 + 1 := by
  rw [submitCore_voteCounts, upd2_self]

theorem submitCore_counts_other (σ : CState) (s sid0 idx0 r : Nat) (t : Fin 5 → Nat)
    (sid idx : Nat) (hne : ¬ (sid = sid0 ∧ idx = idx0)) :
    (submitCore σ s sid0 idx0 r t).voteCounts sid idx = σ.voteCounts sid idx := by
  rw [submitCore_voteCounts, upd2_ne _ _ _ _ _ _ hne]

theorem submitCore_agg_self_first (σ : CState) (s sid0 idx0 r : Nat)
    (t : Fin 5 → Nat) (hc : σ.voteCounts sid0 idx0 = 0) (hh : Nat) :
    hh ∈ aggHandles (submitCore σ s sid0 idx0 r t) sid0 idx0 ↔
      σ.nextHandle ≤ hh ∧ hh ≤ σ.nextHandle + 5 := by
  simp only [mem_aggHandles, submitCore_sessionTotals, submitCore_tagTotals,
    upd2_self]
  split_ifs
  show hh = σ.nextHandle ∨ hh = σ.nextHandle + 1 + 0 ∨ hh = σ.nextHandle + 1 + 1 ∨
    hh = σ.nextHandle + 1 + 2 ∨ hh = σ.nextHandle + 1 + 3 ∨
    hh = σ.nextHandle + 1 + 4 ↔ σ.nextHandle ≤ hh ∧ hh ≤ σ.nextHandle + 5
  omega

theorem submitCore_agg_self_later (σ : CState) (s sid0 idx0 r : Nat)
    (t : Fin 5 → Nat) (hc : ¬ σ.voteCounts sid0 idx0 = 0) (hh : Nat) :
    hh ∈ aggHandles (submitCore σ s sid0 idx0 r t) sid0 idx0 ↔
      σ.nextHandle + 6 ≤ hh ∧ hh ≤ σ.nextHandle + 11 := by
  simp only [mem_aggHandles, submitCore_sessionTotals, submitCore_tagTotals,
    upd2_self]
  split_ifs
  show hh = σ.nextHandle + 6 ∨ hh = σ.nextHandle + 7 + 0 ∨
    hh = σ.nextHandle + 7 + 1 ∨ hh = σ.nextHandle + 7 + 2 ∨
    hh = σ.nextHandle + 7 + 3 ∨ hh = σ.nextHandle + 7 + 4 ↔
    σ.nextHandle + 6 ≤ hh ∧ hh ≤ σ.nextHandle + 11
  omega

theorem submitCore_agg_other (σ : CState) (s sid0 idx0 r : Nat) (t : Fin 5 → Nat)
    (sid idx : Nat) (hne : ¬ (sid = sid0 ∧ idx = idx0)) :
    aggHandles (submitCore σ s sid0 idx0 r t) sid idx = aggHandles σ sid idx := by
  simp only [aggHandles, submitCore_sessionTotals, submitCore_tagTotals]
  rw [upd2_ne σ.sessionTotals sid0 idx0 _ sid idx hne,
    upd2_ne σ.tagTotals sid0 idx0 _ sid idx hne]

theorem inv_submit (σ : CState) (s n sid0 idx0 r : Nat) (t : Fin 5 → Nat)
    (hI : Inv σ) : Inv (applyOp σ (.submit s n sid0 idx0 r t)) := by
  rcases applyOp_submit_cases σ s n sid0 idx0 r t with h |
    ⟨h1, h2, h3, h4, h5, h6, h⟩
  · rw [h]
    exact hI
  · rw [h]
    have hsidlt := organizer_lt_counter σ sid0 hI h1
    refine ⟨?_, ?_, ?_, ?_, ?_, ?_, ?_, ?_, ?_, ?_⟩
    · intro sid hs
      exact hI.freshSessions sid hs
    · intro sid idx v hs
      have hs' : σ.sessionCounter ≤ sid := hs
      rw [submitCore_votes_other _ _ _ _ _ _ _ _ _ (by omega)]
      exact hI.freshVotes sid idx v hs'
    · intro sid hs
      exact hI.freshRequested sid hs
    · intro sid idx v hsub hh hm
      rw [submitCore_nextHandle]
      by_cases htr : sid = sid0 ∧ idx = idx0 ∧ v = s
      · rw [htr.1, htr.2.1, htr.2.2] at hm
        rw [submitCore_votes_self, mem_ballotHandles_fresh] at hm
        split_ifs <;> omega
      · rw [submitCore_votes_other _ _ _ _ _ _ _ _ _ htr] at hsub hm
        have hb := hI.ballotBound sid idx v hsub hh hm
        split_ifs <;> omega
    · intro sid idx hc hh hm
      rw [submitCore_nextHandle]
      by_cases hpair : sid = sid0 ∧ idx = idx0
      · rw [hpair.1, hpair.2] at hm
        by_cases hfz : σ.voteCounts sid0 idx0 = 0
        · rw [submitCore_agg_self_first _ _ _ _ _ _ hfz] at hm
          split_ifs
          omega
        · rw [submitCore_agg_self_later _ _ _ _ _ _ hfz] at hm
          split_ifs
          omega
      · rw [submitCore_agg_other _ _ _ _ _ _ _ _ hpair] at hm
        rw [submitCore_counts_other _ _ _ _ _ _ _ _ hpair] at hc
        have hb := hI.aggBound sid idx hc hh hm
        split_ifs <;> omega
    · intro sid idx v sid' idx' v' hsub hsub' hne hh hm
      by_cases ht1 : sid = sid0 ∧ idx = idx0 ∧ v = s
      · by_cases ht2 : sid' = sid0 ∧ idx' = idx0 ∧ v' = s
        · exact absurd ⟨by omega, by omega, by omega⟩ hne
        · rw [ht1.1, ht1.2.1, ht1.2.2] at hm
          rw [submitCore_votes_self, mem_ballotHandles_fresh] at hm
          rw [submitCore_votes_other _ _ _ _ _ _ _ _ _ ht2] at hsub' ⊢
          intro habs
          have hb := hI.ballotBound sid' idx' v' hsub' hh habs
          omega
      · rw [submitCore_votes_other _ _ _ _ _ _ _ _ _ ht1] at hsub hm
        have hblt := hI.ballotBound sid idx v hsub hh hm
        by_cases ht2 : sid' = sid0 ∧ idx' = idx0 ∧ v' = s
        · rw [ht2.1, ht2.2.1, ht2.2.2]
          rw [submitCore_votes_self, mem_ballotHandles_fresh]
          omega
        · rw [submitCore_votes_other _ _ _ _ _ _ _ _ _ ht2] at hsub' ⊢
          exact hI.ballotDisjoint sid idx v sid' idx' v' hsub hsub' hne hh hm
    · intro sid idx v hsub hh hm sid' idx' hc hm'
      by_cases ht1 : sid = sid0 ∧ idx = idx0 ∧ v = s
      · rw [ht1.1, ht1.2.1, ht1.2.2] at hm
        rw [submitCore_votes_self, mem_ballotHandles_fresh] at hm
        by_cases hpair : sid' = sid0 ∧ idx' = idx0
        · by_cases hfz : σ.voteCounts sid0 idx0 = 0
          · refine ⟨by omega, by omega, ?_⟩
            rw [ht1.1, ht1.2.1, submitCore_counts_self]
            omega
          · rw [hpair.1, hpair.2] at hm'
            rw [submitCore_agg_self_later _ _ _ _ _ _ hfz] at hm'
            exfalso
            omega
        · rw [submitCore_agg_other _ _ _ _ _ _ _ _ hpair] at hm'
          rw [submitCore_counts_other _ _ _ _ _ _ _ _ hpair] at hc
          have hb := hI.aggBound sid' idx' hc hh hm'
          exfalso
          omega
      · rw [submitCore_votes_other _ _ _ _ _ _ _ _ _ ht1] at hsub hm
        have hblt := hI.ballotBound sid idx v hsub hh hm
        by_cases hpair : sid' = sid0 ∧ idx' = idx0
        · by_cases hfz : σ.voteCounts sid0 idx0 = 0
          · rw [hpair.1, hpair.2] at hm'
            rw [submitCore_agg_self_first _ _ _ _ _ _ hfz] at hm'
            exfalso
            omega
          · rw [hpair.1, hpair.2] at hm'
            rw [submitCore_agg_self_later _ _ _ _ _ _ hfz] at hm'
            exfalso
            omega
        · rw [submitCore_agg_other _ _ _ _ _ _ _ _ hpair] at hm'
          rw [submitCore_counts_other _ _ _ _ _ _ _ _ hpair] at hc
          have hres := hI.ballotAgg sid idx v hsub hh hm sid' idx' hc hm'
          have hne2 : ¬ (sid = sid0 ∧ idx = idx0) := fun hx =>
            hpair ⟨hres.1.trans hx.1, hres.2.1.trans hx.2⟩
          refine ⟨hres.1, hres.2.1, ?_⟩
          rw [submitCore_counts_other _ _ _ _ _ _ _ _ hne2]
          exact hres.2.2
    · intro sid hreq
      exact hI.requestedClosed sid hreq
    · intro sid idx hcz
      by_cases hpair : sid = sid0 ∧ idx = idx0
      · rw [hpair.1, hpair.2, submitCore_counts_self] at hcz
        exact absurd hcz (by omega)
      · rw [submitCore_counts_other _ _ _ _ _ _ _ _ hpair] at hcz
        have hz := hI.zeroAgg sid idx hcz
        constructor
        · rw [submitCore_sessionTotals, upd2_ne _ _ _ _ _ _ hpair]
          exact hz.1
        · intro j
          rw [submitCore_tagTotals, upd2_ne _ _ _ _ _ _ hpair]
          exact hz.2 j
    · intro hh p hacl
      have hacl' : aclAllowAll σ.acl
          (submitGrants s ⟨σ.nextHandle, r % 2 ^ 16⟩
            (fun j => ⟨σ.nextHandle + 1 + j.val, t j % 2 ^ 8⟩)
            (if σ.voteCounts sid0 idx0 = 0 then ⟨σ.nextHandle, r % 2 ^ 16⟩
             else ⟨σ.nextHandle + 6, (σ.sessionTotals sid0 idx0).val + r % 2 ^ 16⟩)
            (if σ.voteCounts sid0 idx0 = 0 then
              fun j => ⟨σ.nextHandle + 1 + j.val, t j % 2 ^ 8⟩
             else fun j => ⟨σ.nextHandle + 7 + j.val,
               (σ.tagTotals sid0 idx0 j).val + t j % 2 ^ 8⟩)) hh p = true := hacl
      rcases (aclAllowAll_true_iff _ _ _ _).mp hacl' with hold | hnew
      · rcases hI.aclChar hh p hold with hc1 | ⟨sid, idx, v, hsubO, hmO, hp⟩ |
          ⟨sid, idx, hreq, hcO, hmO, hp⟩
        · exact Or.inl hc1
        · have hne : ¬ (sid = sid0 ∧ idx = idx0 ∧ v = s) := by
            rintro ⟨e1, e2, e3⟩
            rw [e1, e2, e3] at hsubO
            rw [h5] at hsubO
            exact Bool.false_ne_true hsubO
          refine Or.inr (Or.inl ⟨sid, idx, v, ?_, ?_, hp⟩)
          · rw [submitCore_votes_other _ _ _ _ _ _ _ _ _ hne]
            exact hsubO
          · rw [submitCore_votes_other _ _ _ _ _ _ _ _ _ hne]
            exact hmO
        · have hnsid : ¬ (sid = sid0 ∧ idx = idx0) := by
            rintro ⟨e1, e2⟩
            rw [e1] at hreq
            exact hI.requestedClosed sid0 hreq h2
          refine Or.inr (Or.inr ⟨sid, idx, hreq, ?_, ?_, hp⟩)
          · rw [submitCore_counts_other _ _ _ _ _ _ _ _ hnsid]
            exact hcO
          · rw [submitCore_agg_other _ _ _ _ _ _ _ _ hnsid]
            exact hmO
      · rcases (mem_submitGrants _ _ _ _ _ hh p).mp hnew with
          ⟨hball, hpA | hpA⟩ | ⟨hpc, _⟩
        · refine Or.inr (Or.inl ⟨sid0, idx0, s, ?_, ?_, hpA⟩)
          · rw [submitCore_votes_self]
          · rw [submitCore_votes_self]
            exact hball
        · exact Or.inl hpA
        · exact Or.inl hpc

theorem inv_applyOp (σ : CState) (op : Op) (hI : Inv σ) : Inv (applyOp σ op) := by
  cases op with
  | create s n ti de dl ns names tl => exact inv_create σ s n ti de dl ns names tl hI
  | submit s n sid idx r t => exact inv_submit σ s n sid idx r t hI
  | close s sid => exact inv_close σ s sid hI
  | reveal s sid => exact inv_reveal σ s sid hI
  | request s sid => exact inv_request σ s sid hI
  | rankings sid => exact inv_rankings σ sid hI

theorem inv_run_aux (σ : CState) (ops : List Op) (hI : Inv σ) : Inv (run σ ops) := by
  induction ops generalizing σ with
  | nil => exact hI
  | cons op ops ih => exact ih (applyOp σ op) (inv_applyOp σ op hI)

/-- Every state reachable from a fresh deployment satisfies the invariant. -/
theorem inv_run (ops : List Op) : Inv (run initState ops) :=
  inv_run_aux initState ops inv_init

/-! ### Aggregation correctness along a trace -/

/-- A step that does not touch the (sid, idx) aggregate preserves `AggSpec`. -/
theorem aggSpec_frame (σ σa σr : CState) (sid idx : Nat)
    (L : List (Nat × (Fin 5 → Nat)))
    (hc : σa.voteCounts sid idx = σ.voteCounts sid idx)
    (ht : σa.sessionTotals sid idx = σ.sessionTotals sid idx)
    (hg : ∀ j, σa.tagTotals sid idx j = σ.tagTotals sid idx j)
    (hs : AggSpec σa σr sid idx L) : AggSpec σ σr sid idx L := by
  rcases hs with ⟨s1, s2, s3, s4⟩
  refine ⟨?_, ?_, ?_, ?_⟩
  · rw [s1, hc]
  · intro h0
    rcases s2 (by rw [hc]; exact h0) with ⟨a, b⟩
    exact ⟨by rw [a, ht], fun j => by rw [b j, hg j]⟩
  · intro h0 hnil
    rcases s3 (by rw [hc]; exact h0) hnil with ⟨a, b⟩
    exact ⟨by rw [a, ht], fun j => by rw [b j, hg j]⟩
  · intro h0 hnil
    exact s4 (by rw [hc]; exact h0) hnil

/-- Folding one more ballot through `submitCore` extends `AggSpec` by the
admitted ballot values. -/
theorem aggSpec_fold (σ : CState) (s' sid' idx' r' : Nat) (t' : Fin 5 → Nat)
    (σr : CState) (L : List (Nat × (Fin 5 → Nat)))
    (hs : AggSpec (submitCore σ s' sid' idx' r' t') σr sid' idx' L) :
    AggSpec σ σr sid' idx' ((r' % 2 ^ 16, fun j => t' j % 2 ^ 8) :: L) := by
  rcases hs with ⟨s1, s2, s3, s4⟩
  have hc := submitCore_counts_self σ s' sid' idx' r' t'
  refine ⟨?_, ?_, ?_, ?_⟩
  · rw [s1, hc]
    simp only [List.length_cons]
    omega
  · intro h0
    rcases s2 (by rw [hc]; omega) with ⟨a, b⟩
    constructor
    · rw [a, submitCore_sessionTotals, upd2_self,
        if_neg (by omega : ¬ σ.voteCounts sid' idx' = 0)]
      show (σ.sessionTotals sid' idx').val + r' % 2 ^ 16 + (L.map Prod.fst).sum =
        (σ.sessionTotals sid' idx').val + (r' % 2 ^ 16 + (L.map Prod.fst).sum)
      omega
    · intro j
      rw [b j, submitCore_tagTotals, upd2_self,
        if_neg (by omega : ¬ σ.voteCounts sid' idx' = 0)]
      show (σ.tagTotals sid' idx' j).val + t' j % 2 ^ 8 +
          (L.map (fun b => b.2 j)).sum =
        (σ.tagTotals sid' idx' j).val +
          (t' j % 2 ^ 8 + (L.map (fun b => b.2 j)).sum)
      omega
  · intro _ hnil
    exact absurd hnil (List.cons_ne_nil _ _)
  · intro h0 _
    rcases s2 (by rw [hc]; omega) with ⟨a, b⟩
    constructor
    · rw [a, submitCore_sessionTotals, upd2_self, if_pos h0]
      show r' % 2 ^ 16 + (L.map Prod.fst).sum =
        r' % 2 ^ 16 + (L.map Prod.fst).sum
      rfl
    · intro j
      rw [b j, submitCore_tagTotals, upd2_self, if_pos h0]
      show t' j % 2 ^ 8 + (L.map (fun b => b.2 j)).sum =
        t' j % 2 ^ 8 + (L.map (fun b => b.2 j)).sum
      rfl

/-- Main aggregation lemma: along any trace, the (sid, idx) counter and sums
advance exactly by the folded ballots. -/
theorem foldedAgg (ops : List Op) (σ : CState) (sid idx : Nat) :
    AggSpec σ (run σ ops) sid idx (foldedBallots σ sid idx ops) := by
  induction ops generalizing σ with
  | nil =>
    refine ⟨rfl, ?_, ?_, ?_⟩
    · intro _
      exact ⟨rfl, fun _ => rfl⟩
    · intro _ _
      exact ⟨rfl, fun _ => rfl⟩
    · intro _ hnil
      exact absurd rfl hnil
  | cons op ops ih =>
    cases op with
    | create s' n' ti de dl ns names tl =>
      have hP : (applyOp σ (Op.create s' n' ti de dl ns names tl)).voteCounts = σ.voteCounts ∧
          (applyOp σ (Op.create s' n' ti de dl ns names tl)).sessionTotals = σ.sessionTotals ∧
          (applyOp σ (Op.create s' n' ti de dl ns names tl)).tagTotals = σ.tagTotals := by
        rcases applyOp_create_cases σ s' n' ti de dl ns names tl with hcc |
          ⟨_, _, _, _, _, hcc⟩ <;> rw [hcc] <;> exact ⟨rfl, rfl, rfl⟩
      exact aggSpec_frame σ _ _ sid idx _ (by rw [hP.1]) (by rw [hP.2.1])
        (fun j => by rw [hP.2.2]) (ih (applyOp σ (Op.create s' n' ti de dl ns names tl)))
    | close s' sid' =>
      have hP : (applyOp σ (Op.close s' sid')).voteCounts = σ.voteCounts ∧
          (applyOp σ (Op.close s' sid')).sessionTotals = σ.sessionTotals ∧
          (applyOp σ (Op.close s' sid')).tagTotals = σ.tagTotals := by
        rcases applyOp_close_cases σ s' sid' with hcc | ⟨_, _, _, hcc⟩ <;>
          rw [hcc] <;> exact ⟨rfl, rfl, rfl⟩
      exact aggSpec_frame σ _ _ sid idx _ (by rw [hP.1]) (by rw [hP.2.1])
        (fun j => by rw [hP.2.2]) (ih (applyOp σ (Op.close s' sid')))
    | reveal s' sid' =>
      have hP : (applyOp σ (Op.reveal s' sid')).voteCounts = σ.voteCounts ∧
          (applyOp σ (Op.reveal s' sid')).sessionTotals = σ.sessionTotals ∧
          (applyOp σ (Op.reveal s' sid')).tagTotals = σ.tagTotals := by
        rcases applyOp_reveal_cases σ s' sid' with hcc | ⟨_, _, _, hcc⟩ <;>
          rw [hcc] <;> exact ⟨rfl, rfl, rfl⟩
      exact aggSpec_frame σ _ _ sid idx _ (by rw [hP.1]) (by rw [hP.2.1])
        (fun j => by rw [hP.2.2]) (ih (applyOp σ (Op.reveal s' sid')))
    | request s' sid' =>
      have hP : (applyOp σ (Op.request s' sid')).voteCounts = σ.voteCounts ∧
          (applyOp σ (Op.request s' sid')).sessionTotals = σ.sessionTotals ∧
          (applyOp σ (Op.request s' sid')).tagTotals = σ.tagTotals := by
        rcases applyOp_request_cases σ s' sid' with hcc | ⟨_, _, _, _, hcc⟩ <;>
          rw [hcc] <;> exact ⟨rfl, rfl, rfl⟩
      exact aggSpec_frame σ _ _ sid idx _ (by rw [hP.1]) (by rw [hP.2.1])
        (fun j => by rw [hP.2.2]) (ih (applyOp σ (Op.request s' sid')))
    | rankings sid' =>
      have hP := applyOp_rankings σ sid'
      exact aggSpec_frame σ _ _ sid idx _ (by rw [hP]) (by rw [hP])
        (fun j => by rw [hP]) (ih (applyOp σ (Op.rankings sid')))
    | submit s' n' sid' idx' r' t' =>
      rcases submitVote_cases σ s' n' sid' idx' r' t' with ⟨e, he⟩ |
        ⟨g1, g2, g3, g4, g5, g6, hok⟩
      · have ha : applyOp σ (Op.submit s' n' sid' idx' r' t') = σ := by
          rw [applyOp_submit, he]
        have hfold : foldedBallots σ sid idx (Op.submit s' n' sid' idx' r' t' :: ops) =
            foldedBallots σ sid idx ops := by
          simp only [foldedBallots, he]
        have hrun : run σ (Op.submit s' n' sid' idx' r' t' :: ops) = run σ ops := by
          show run (applyOp σ (Op.submit s' n' sid' idx' r' t')) ops = run σ ops
          rw [ha]
        rw [hrun, hfold]
        exact ih σ
      · by_cases hps : sid' = sid ∧ idx' = idx
        · rw [hps.1, hps.2] at hok
          have ha : applyOp σ (Op.submit s' n' sid idx r' t') =
              submitCore σ s' sid idx r' t' := by
            rw [applyOp_submit, hok]
          have hrun : run σ (Op.submit s' n' sid idx r' t' :: ops) =
              run (submitCore σ s' sid idx r' t') ops := by
            show run (applyOp σ (Op.submit s' n' sid idx r' t')) ops = _
            rw [ha]
          have hfold : foldedBallots σ sid idx
                (Op.submit s' n' sid idx r' t' :: ops) =
              (r' % 2 ^ 16, fun j => t' j % 2 ^ 8) ::
                foldedBallots (submitCore σ s' sid idx r' t') sid idx ops := by
            simp [foldedBallots, hok]
          rw [hps.1, hps.2, hrun, hfold]
          exact aggSpec_fold σ s' sid idx r' t' _ _
            (ih (submitCore σ s' sid idx r' t'))
        · have ha : applyOp σ (Op.submit s' n' sid' idx' r' t') =
              submitCore σ s' sid' idx' r' t' := by
            rw [applyOp_submit, hok]
          have hrun : run σ (Op.submit s' n' sid' idx' r' t' :: ops) =
              run (submitCore σ s' sid' idx' r' t') ops := by
            show run (applyOp σ (Op.submit s' n' sid' idx' r' t')) ops = _
            rw [ha]
          have hne : ¬ (sid = sid' ∧ idx = idx') := fun hx =>
            hps ⟨hx.1.symm, hx.2.symm⟩
          have hfold : foldedBallots σ sid idx
                (Op.submit s' n' sid' idx' r' t' :: ops) =
              foldedBallots (submitCore σ s' sid' idx' r' t') sid idx ops := by
            simp only [foldedBallots, hok]
            rw [if_neg hps]
          rw [hrun, hfold]
          exact aggSpec_frame σ (submitCore σ s' sid' idx' r' t') _ sid idx _
            (submitCore_counts_other σ s' sid' idx' r' t' sid idx hne)
            (by rw [submitCore_sessionTotals, upd2_ne _ _ _ _ _ _ hne])
            (fun j => by rw [submitCore_tagTotals, upd2_ne _ _ _ _ _ _ hne])
            (ih (submitCore σ s' sid' idx' r' t'))

/-! ### At-most-once lemmas -/

theorem submitSuccesses_zero (σ : CState) (sid idx v : Nat) (ops : List Op)
    (h : (σ.votes sid idx v).submitted = true) :
    submitSuccesses σ sid idx v ops = 0 := by
  induction ops generalizing σ with
  | nil => rfl
  | cons op ops ih =>
    have h' := submitted_applyOp_mono σ op sid idx v h
    cases op with
    | create s' n' ti de dl ns names tl =>
      simp only [submitSuccesses, Nat.zero_add]
      exact ih _ h'
    | close s' sid' =>
      simp only [submitSuccesses, Nat.zero_add]
      exact ih _ h'
    | reveal s' sid' =>
      simp only [submitSuccesses, Nat.zero_add]
      exact ih _ h'
    | request s' sid' =>
      simp only [submitSuccesses, Nat.zero_add]
      exact ih _ h'
    | rankings sid' =>
      simp only [submitSuccesses, Nat.zero_add]
      exact ih _ h'
    | submit s' n' sid' idx' r' t' =>
      rcases submitVote_cases σ s' n' sid' idx' r' t' with ⟨e, he⟩ |
        ⟨g1, g2, g3, g4, g5, g6, hok⟩
      · simp only [submitSuccesses, he, Nat.zero_add]
        exact ih _ h'
      · by_cases ht : sid' = sid ∧ idx' = idx ∧ s' = v
        · exfalso
          rw [ht.1, ht.2.1, ht.2.2] at g5
          rw [h] at g5
          simp at g5
        · simp only [submitSuccesses, hok]
          rw [if_neg ht, Nat.zero_add]
          exact ih _ h'

theorem submitSuccesses_le_one (σ : CState) (sid idx v : Nat) (ops : List Op) :
    submitSuccesses σ sid idx v ops ≤ 1 := by
  induction ops generalizing σ with
  | nil => exact Nat.zero_le 1
  | cons op ops ih =>
    cases op with
    | create s' n' ti de dl ns names tl =>
      simp only [submitSuccesses, Nat.zero_add]
      exact ih _
    | close s' sid' =>
      simp only [submitSuccesses, Nat.zero_add]
      exact ih _
    | reveal s' sid' =>
      simp only [submitSuccesses, Nat.zero_add]
      exact ih _
    | request s' sid' =>
      simp only [submitSuccesses, Nat.zero_add]
      exact ih _
    | rankings sid' =>
      simp only [submitSuccesses, Nat.zero_add]
      exact ih _
    | submit s' n' sid' idx' r' t' =>
      rcases submitVote_cases σ s' n' sid' idx' r' t' with ⟨e, he⟩ |
        ⟨g1, g2, g3, g4, g5, g6, hok⟩
      · simp only [submitSuccesses, he, Nat.zero_add]
        exact ih _
      · by_cases ht : sid' = sid ∧ idx' = idx ∧ s' = v
        · have ha : applyOp σ (Op.submit s' n' sid' idx' r' t') =
              submitCore σ s' sid' idx' r' t' := by
            rw [applyOp_submit, hok]
          have hsubafter : ((applyOp σ (Op.submit s' n' sid' idx' r' t')).votes
              sid idx v).submitted = true := by
            rw [ha, ← ht.1, ← ht.2.1, ← ht.2.2, submitCore_votes_self]
          have htail := submitSuccesses_zero _ sid idx v ops hsubafter
          simp only [submitSuccesses, hok]
          rw [if_pos ht, htail]
        · simp only [submitSuccesses, hok]
          rw [if_neg ht, Nat.zero_add]
          exact ih _

theorem requestSuccesses_zero (σ : CState) (sid : Nat) (ops : List Op)
    (h : σ.decryptionRequested sid = true) :
    requestSuccesses σ sid ops = 0 := by
  induction ops generalizing σ with
  | nil => rfl
  | cons op ops ih =>
    have h' := requested_applyOp_mono σ op sid h
    cases op with
    | create s' n' ti de dl ns names tl =>
      simp only [requestSuccesses, Nat.zero_add]
      exact ih _ h'
    | close s' sid' =>
      simp only [requestSuccesses, Nat.zero_add]
      exact ih _ h'
    | reveal s' sid' =>
      simp only [requestSuccesses, Nat.zero_add]
      exact ih _ h'
    | submit s' n' sid' idx' r' t' =>
      simp only [requestSuccesses, Nat.zero_add]
      exact ih _ h'
    | rankings sid' =>
      simp only [requestSuccesses, Nat.zero_add]
      exact ih _ h'
    | request s' sid' =>
      rcases requestOrganizerDecryption_cases σ s' sid' with ⟨e, he⟩ |
        ⟨g1, g2, g3, g4, hok⟩
      · simp only [requestSuccesses, he, Nat.zero_add]
        exact ih _ h'
      · by_cases ht : sid' = sid
        · exfalso
          rw [ht] at g4
          rw [h] at g4
          simp at g4
        · simp only [requestSuccesses, hok]
          rw [if_neg ht, Nat.zero_add]
          exact ih _ h'

theorem requestSuccesses_le_one (σ : CState) (sid : Nat) (ops : List Op) :
    requestSuccesses σ sid ops ≤ 1 := by
  induction ops generalizing σ with
  | nil => exact Nat.zero_le 1
  | cons op ops ih =>
    cases op with
    | create s' n' ti de dl ns names tl =>
      simp only [requestSuccesses, Nat.zero_add]
      exact ih _
    | close s' sid' =>
      simp only [requestSuccesses, Nat.zero_add]
      exact ih _
    | reveal s' sid' =>
      simp only [requestSuccesses, Nat.zero_add]
      exact ih _
    | submit s' n' sid' idx' r' t' =>
      simp only [requestSuccesses, Nat.zero_add]
      exact ih _
    | rankings sid' =>
      simp only [requestSuccesses, Nat.zero_add]
      exact ih _
    | request s' sid' =>
      rcases requestOrganizerDecryption_cases σ s' sid' with ⟨e, he⟩ |
        ⟨g1, g2, g3, g4, hok⟩
      · simp only [requestSuccesses, he, Nat.zero_add]
        exact ih _
      · by_cases ht : sid' = sid
        · have ha : applyOp σ (Op.request s' sid') =
              { σ with
                decryptionRequested := upd σ.decryptionRequested sid' true
                acl := aclAllowAll σ.acl
                  (decryptionGrants σ sid' s' (σ.sessions sid').numSetups) } := by
            rw [applyOp_request, hok]
          have hafter : (applyOp σ (Op.request s' sid')).decryptionRequested sid = true := by
            rw [ha, ← ht]
            show upd σ.decryptionRequested sid' true sid' = true
            rw [upd_self]
          have htail := requestSuccesses_zero _ sid ops hafter
          simp only [requestSuccesses, hok]
          rw [if_pos ht, htail]
        · simp only [requestSuccesses, hok]
          rw [if_neg ht, Nat.zero_add]
          exact ih _

theorem stateCode_eq_zero (st : SessionState) (h : stateCode st = 0) :
    st = .Draft := by
  cases st <;> simp_all [stateCode]

/-! ### Claim theorems -/

/-- C7: `createSession` succeeds if and only if the deadline is strictly in
the future, the setup count lies in [2, 10], and the names array length
matches; on success it returns the current counter value as the fresh id,
increments the counter, and stores an `Active` session with the supplied
fields; the counter never decreases under any transaction, so two successful
creations (the second after any further trace) return strictly increasing
ids. -/
theorem c7_create_spec (σ : CState) (s now : Nat) (ti de : String) (dl ns : Nat)
    (names : List String) (tl : String) (hctr : σ.sessionCounter + 1 < 2 ^ 256) :
    ((∃ p, createSession σ s now ti de dl ns names tl = .ok p) ↔
      (now < dl ∧ 2 ≤ ns ∧ ns ≤ 10 ∧ names.length = ns))
    ∧ (∀ σ' sid, createSession σ s now ti de dl ns names tl = .ok (σ', sid) →
        sid = σ.sessionCounter ∧ σ'.sessionCounter = σ.sessionCounter + 1 ∧
        (σ'.sessions sid).state = .Active ∧ (σ'.sessions sid).organizer = s ∧
        (σ'.sessions sid).numSetups = ns ∧
        (σ'.sessions sid).equipmentNames = names ∧
        (σ'.sessions sid).deadline = dl)
    ∧ (∀ op, σ.sessionCounter ≤ (applyOp σ op).sessionCounter)
    ∧ (∀ σ' sid ops s2 now2 ti2 de2 dl2 ns2 names2 tl2 σ2 sid2,
        createSession σ s now ti de dl ns names tl = .ok (σ', sid) →
        createSession (run σ' ops) s2 now2 ti2 de2 dl2 ns2 names2 tl2 =
          .ok (σ2, sid2) →
        sid < sid2) := by
  refine ⟨?_, ?_, ?_, ?_⟩
  · constructor
    · rintro ⟨p, hp⟩
      rcases createSession_cases σ s now ti de dl ns names tl with ⟨e, he⟩ |
        ⟨c1, c2, c3, c4, c5, hok⟩
      · rw [he] at hp
        simp at hp
      · exact ⟨c1, c2, c3, c4⟩
    · rintro ⟨c1, c2, c3, c4⟩
      exact ⟨_, by
        unfold createSession
        rw [if_neg (not_not_intro c1), if_neg (not_not_intro ⟨c2, c3⟩),
          if_neg (not_not_intro c4), if_neg (not_not_intro hctr)]⟩
  · intro σ' sid hok'
    rcases createSession_cases σ s now ti de dl ns names tl with ⟨e, he⟩ |
      ⟨c1, c2, c3, c4, c5, hok⟩
    · rw [he] at hok'
      simp at hok'
    · rw [hok] at hok'
      obtain ⟨hA, hsid⟩ := Prod.mk.inj (Except.ok.inj hok')
      refine ⟨hsid.symm, ?_, ?_, ?_, ?_, ?_, ?_⟩
      · rw [← hA]
      · rw [← hA, ← hsid]
        simp [upd_apply]
      · rw [← hA, ← hsid]
        simp [upd_apply]
      · rw [← hA, ← hsid]
        simp [upd_apply]
      · rw [← hA, ← hsid]
        simp [upd_apply]
      · rw [← hA, ← hsid]
        simp [upd_apply]
  · exact fun op => sessionCounter_applyOp_le σ op
  · intro σ' sid ops s2 now2 ti2 de2 dl2 ns2 names2 tl2 σ2 sid2 hok1 hok2
    rcases createSession_cases σ s now ti de dl ns names tl with ⟨e, he⟩ |
      ⟨_, _, _, _, _, hok⟩
    · rw [he] at hok1
      simp at hok1
    · rw [hok] at hok1
      obtain ⟨hA, hsid⟩ := Prod.mk.inj (Except.ok.inj hok1)
      rcases createSession_cases (run σ' ops) s2 now2 ti2 de2 dl2 ns2 names2 tl2
        with ⟨e, he2⟩ | ⟨_, _, _, _, _, hok2'⟩
      · rw [he2] at hok2
        simp at hok2
      · rw [hok2'] at hok2
        obtain ⟨hB, hsid2⟩ := Prod.mk.inj (Except.ok.inj hok2)
        have e2 : σ'.sessionCounter = σ.sessionCounter + 1 := by
          rw [← hA]
        have e3 : σ'.sessionCounter ≤ (run σ' ops).sessionCounter :=
          sessionCounter_run_le σ' ops
        omega

/-- C6: the deadline gates submission but not closure — `submitVote`
succeeds only when `now ≤ deadline` and fails with `DeadlinePassed` on an
active existing session once the deadline has passed, while `closeSession`
by the organizer on an active existing session succeeds with no reference to
the clock at all (in particular also strictly before the deadline). -/
theorem c6_deadline_gating (σ : CState) (sender now sid idx r : Nat)
    (t : Fin 5 → Nat) :
    (∀ σ', submitVote σ sender now sid idx r t = .ok σ' →
      now ≤ (σ.sessions sid).deadline)
    ∧ ((σ.sessions sid).organizer ≠ 0 → (σ.sessions sid).state = .Active →
        (σ.sessions sid).deadline < now →
        submitVote σ sender now sid idx r t = .error .DeadlinePassed)
    ∧ ((σ.sessions sid).organizer ≠ 0 → (σ.sessions sid).organizer = sender →
        (σ.sessions sid).state = .Active →
        ∃ σ', closeSession σ sender sid = .ok σ') := by
  refine ⟨?_, ?_, ?_⟩
  · intro σ' hok
    rcases submitVote_cases σ sender now sid idx r t with ⟨e, he⟩ |
      ⟨g1, g2, g3, g4, g5, g6, hok2⟩
    · rw [he] at hok
      simp at hok
    · exact g3
  · intro h1 h2 h3
    unfold submitVote
    rw [if_neg h1, if_neg (not_not_intro h2),
      if_pos (by omega : ¬ now ≤ (σ.sessions sid).deadline)]
  · intro h1 h2 h3
    exact ⟨_, by
      unfold closeSession
      rw [if_neg h1, if_neg (not_not_intro h2), if_neg (not_not_intro h3)]⟩

/-- C5: session state only moves forward along
Active (1) → Closed (2) → Revealed (3): on any reachable state, no
transaction decreases the state code of any session, no transaction moves a
session (back) to `Draft`, `closeSession` succeeds exactly on an existing
session when called by its organizer in state `Active` (and then the state
becomes `Closed`), and `revealEquipment` succeeds exactly on an existing
session when called by its organizer in state `Closed` (and then the state
becomes `Revealed`); backward attempts are exactly the calls outside these
conditions and all fail. -/
theorem c5_state_forward (ops : List Op) (op : Op) (sid sender : Nat) :
    stateCode ((run initState ops).sessions sid).state ≤
      stateCode ((applyOp (run initState ops) op).sessions sid).state
    ∧ (((applyOp (run initState ops) op).sessions sid).state = .Draft →
        ((run initState ops).sessions sid).state = .Draft)
    ∧ ((∃ σ', closeSession (run initState ops) sender sid = .ok σ') ↔
        (((run initState ops).sessions sid).organizer ≠ 0 ∧
         ((run initState ops).sessions sid).organizer = sender ∧
         ((run initState ops).sessions sid).state = .Active))
    ∧ (∀ σ', closeSession (run initState ops) sender sid = .ok σ' →
        (σ'.sessions sid).state = .Closed)
    ∧ ((∃ σ', revealEquipment (run initState ops) sender sid = .ok σ') ↔
        (((run initState ops).sessions sid).organizer ≠ 0 ∧
         ((run initState ops).sessions sid).organizer = sender ∧
         ((run initState ops).sessions sid).state = .Closed))
    ∧ (∀ σ', revealEquipment (run initState ops) sender sid = .ok σ' →
        (σ'.sessions sid).state = .Revealed) := by
  have hI := inv_run ops
  have hmono : stateCode ((run initState ops).sessions sid).state ≤
      stateCode ((applyOp (run initState ops) op).sessions sid).state := by
    cases op with
    | create s2 n2 ti de dl ns names tl =>
      rcases applyOp_create_cases (run initState ops) s2 n2 ti de dl ns names tl
        with h | ⟨_, _, _, _, _, h⟩ <;> rw [h]
      by_cases hs : sid = (run initState ops).sessionCounter
      · have hdef := hI.freshSessions sid (le_of_eq hs.symm)
        rw [hdef]
        exact Nat.zero_le _
      · show stateCode ((run initState ops).sessions sid).state ≤
          stateCode ((upd (run initState ops).sessions
            (run initState ops).sessionCounter _ sid).state)
        rw [upd_ne _ _ _ _ hs]
    | submit s2 n2 sid2 idx2 r2 t2 =>
      rcases applyOp_submit_cases (run initState ops) s2 n2 sid2 idx2 r2 t2
        with h | ⟨_, _, _, _, _, _, h⟩ <;> rw [h] <;> exact le_refl _
    | close s2 sid2 =>
      rcases applyOp_close_cases (run initState ops) s2 sid2 with h |
        ⟨_, _, h3, h⟩ <;> rw [h]
      by_cases hs : sid = sid2
      · rw [hs]
        show stateCode ((run initState ops).sessions sid2).state ≤
          stateCode ((upd (run initState ops).sessions sid2 _ sid2).state)
        rw [upd_self, h3]
        show stateCode SessionState.Active ≤ stateCode SessionState.Closed
        decide
      · show stateCode ((run initState ops).sessions sid).state ≤
          stateCode ((upd (run initState ops).sessions sid2 _ sid).state)
        rw [upd_ne _ _ _ _ hs]
    | reveal s2 sid2 =>
      rcases applyOp_reveal_cases (run initState ops) s2 sid2 with h |
        ⟨_, _, h3, h⟩ <;> rw [h]
      by_cases hs : sid = sid2
      · rw [hs]
        show stateCode ((run initState ops).sessions sid2).state ≤
          stateCode ((upd (run initState ops).sessions sid2 _ sid2).state)
        rw [upd_self, h3]
        show stateCode SessionState.Closed ≤ stateCode SessionState.Revealed
        decide
      · show stateCode ((run initState ops).sessions sid).state ≤
          stateCode ((upd (run initState ops).sessions sid2 _ sid).state)
        rw [upd_ne _ _ _ _ hs]
    | request s2 sid2 =>
      rcases applyOp_request_cases (run initState ops) s2 sid2 with h |
        ⟨_, _, _, _, h⟩ <;> rw [h] <;> exact le_refl _
    | rankings sid2 =>
      rw [applyOp_rankings]
  refine ⟨hmono, ?_, ?_, ?_, ?_, ?_⟩
  · intro hd
    rw [hd] at hmono
    have h0 : stateCode ((run initState ops).sessions sid).state = 0 := by
      have : stateCode SessionState.Draft = 0 := rfl
      omega
    exact stateCode_eq_zero _ h0
  · constructor
    · rintro ⟨σ', hok⟩
      rcases closeSession_cases (run initState ops) sender sid with ⟨e, he⟩ |
        ⟨c1, c2, c3, _⟩
      · rw [he] at hok
        simp at hok
      · exact ⟨c1, c2, c3⟩
    · rintro ⟨c1, c2, c3⟩
      exact ⟨_, by
        unfold closeSession
        rw [if_neg c1, if_neg (not_not_intro c2), if_neg (not_not_intro c3)]⟩
  · intro σ' hok
    rcases closeSession_cases (run initState ops) sender sid with ⟨e, he⟩ |
      ⟨_, _, _, hok2⟩
    · rw [he] at hok
      simp at hok
    · rw [hok2] at hok
      have hσ := Except.ok.inj hok
      rw [← hσ]
      show (upd (run initState ops).sessions sid _ sid).state = SessionState.Closed
      rw [upd_self]
  · constructor
    · rintro ⟨σ', hok⟩
      rcases revealEquipment_cases (run initState ops) sender sid with ⟨e, he⟩ |
        ⟨c1, c2, c3, _⟩
      · rw [he] at hok
        simp at hok
      · exact ⟨c1, c2, c3⟩
    · rintro ⟨c1, c2, c3⟩
      exact ⟨_, by
        unfold revealEquipment
        rw [if_neg c1, if_neg (not_not_intro c2), if_neg (not_not_intro c3)]⟩
  · intro σ' hok
    rcases revealEquipment_cases (run initState ops) sender sid with ⟨e, he⟩ |
      ⟨_, _, _, hok2⟩
    · rw [he] at hok
      simp at hok
    · rw [hok2] at hok
      have hσ := Except.ok.inj hok
      rw [← hσ]
      show (upd (run initState ops).sessions sid _ sid).state = SessionState.Revealed
      rw [upd_self]

/-- A stored ballot's setup index is always within the session's setup
count (auxiliary invariant step). -/
theorem submittedIdx_applyOp (σ : CState) (op : Op) (hI : Inv σ)
    (hP : ∀ sid idx v, (σ.votes sid idx v).submitted = true →
      idx < (σ.sessions sid).numSetups) :
    ∀ sid idx v, ((applyOp σ op).votes sid idx v).submitted = true →
      idx < ((applyOp σ op).sessions sid).numSetups := by
  intro sid idx v hsub
  cases op with
  | create s2 n2 ti de dl ns names tl =>
    rcases applyOp_create_cases σ s2 n2 ti de dl ns names tl with h |
      ⟨_, _, _, _, _, h⟩ <;> rw [h] at hsub ⊢
    · exact hP sid idx v hsub
    · by_cases hs : sid = σ.sessionCounter
      · exfalso
        have hv : (σ.votes sid idx v).submitted = true := hsub
        have hd := hI.freshVotes sid idx v (le_of_eq hs.symm)
        rw [hd] at hv
        simp [defaultVote] at hv
      · show idx < (upd σ.sessions σ.sessionCounter _ sid).numSetups
        rw [upd_ne _ _ _ _ hs]
        exact hP sid idx v hsub
  | submit s2 n2 sid2 idx2 r2 t2 =>
    rcases applyOp_submit_cases σ s2 n2 sid2 idx2 r2 t2 with h |
      ⟨_, _, _, g4, _, _, h⟩ <;> rw [h] at hsub ⊢
    · exact hP sid idx v hsub
    · by_cases ht : sid = sid2 ∧ idx = idx2 ∧ v = s2
      · show idx < (σ.sessions sid).numSetups
        rw [ht.1, ht.2.1]
        exact g4
      · rw [submitCore_votes_other _ _ _ _ _ _ _ _ _ ht] at hsub
        exact hP sid idx v hsub
  | close s2 sid2 =>
    rcases applyOp_close_cases σ s2 sid2 with h | ⟨_, _, _, h⟩ <;> rw [h] at hsub ⊢
    · exact hP sid idx v hsub
    · show idx < (upd σ.sessions sid2 _ sid).numSetups
      rw [upd_apply]
      split_ifs with hs
      · have hv := hP sid idx v hsub
        show idx < (σ.sessions sid2).numSetups
        rw [← hs]
        exact hv
      · exact hP sid idx v hsub
  | reveal s2 sid2 =>
    rcases applyOp_reveal_cases σ s2 sid2 with h | ⟨_, _, _, h⟩ <;> rw [h] at hsub ⊢
    · exact hP sid idx v hsub
    · show idx < (upd σ.sessions sid2 _ sid).numSetups
      rw [upd_apply]
      split_ifs with hs
      · have hv := hP sid idx v hsub
        show idx < (σ.sessions sid2).numSetups
        rw [← hs]
        exact hv
      · exact hP sid idx v hsub
  | request s2 sid2 =>
    rcases applyOp_request_cases σ s2 sid2 with h | ⟨_, _, _, _, h⟩ <;>
      rw [h] at hsub ⊢ <;> exact hP sid idx v hsub
  | rankings sid2 =>
    rw [applyOp_rankings] at hsub ⊢
    exact hP sid idx v hsub

theorem submittedIdx_run_aux (ops : List Op) (σ : CState) (hI : Inv σ)
    (hP : ∀ sid idx v, (σ.votes sid idx v).submitted = true →
      idx < (σ.sessions sid).numSetups) :
    ∀ sid idx v, ((run σ ops).votes sid idx v).submitted = true →
      idx < ((run σ ops).sessions sid).numSetups := by
  induction ops generalizing σ with
  | nil => exact hP
  | cons op ops ih =>
    exact ih (applyOp σ op) (inv_applyOp σ op hI) (submittedIdx_applyOp σ op hI hP)

theorem submittedIdx_run (ops : List Op) :
    ∀ sid idx v, ((run initState ops).votes sid idx v).submitted = true →
      idx < ((run initState ops).sessions sid).numSetups :=
  submittedIdx_run_aux ops initState inv_init
    (by
      intro sid idx v h
      simp [initState, defaultVote] at h)

/-- C10: on every reachable state, for every existing session the aggregate
queries validate their indices — `getSessionTotal` fails on an
out-of-range setup index, `getTagTotal` fails on an out-of-range setup or
tag index — and with valid indices and a zero vote count both return the
default zero handle. -/
theorem c10_aggregate_queries (ops : List Op) (sid idx tagIdx : Nat)
    (hex : ((run initState ops).sessions sid).organizer ≠ 0) :
    (((run initState ops).sessions sid).numSetups ≤ idx →
      getSessionTotal (run initState ops) sid idx = .error .InvalidSetupIndex
      ∧ getTagTotal (run initState ops) sid idx tagIdx = .error .InvalidSetupIndex)
    ∧ (idx < ((run initState ops).sessions sid).numSetups → 5 ≤ tagIdx →
        getTagTotal (run initState ops) sid idx tagIdx = .error .InvalidTagIndex)
    ∧ (idx < ((run initState ops).sessions sid).numSetups →
        (run initState ops).voteCounts sid idx = 0 →
        getSessionTotal (run initState ops) sid idx = .ok cipherZero
        ∧ (tagIdx < 5 →
            getTagTotal (run initState ops) sid idx tagIdx = .ok cipherZero)) := by
  have hI := inv_run ops
  refine ⟨?_, ?_, ?_⟩
  · intro hge
    constructor
    · unfold getSessionTotal
      rw [if_neg hex, if_pos (by omega :
        ¬ idx < ((run initState ops).sessions sid).numSetups)]
    · unfold getTagTotal
      rw [if_neg hex, if_pos (by omega :
        ¬ idx < ((run initState ops).sessions sid).numSetups)]
  · intro hlt htag
    unfold getTagTotal
    rw [if_neg hex, if_neg (not_not_intro hlt),
      dif_neg (by omega : ¬ tagIdx < 5)]
  · intro hlt hz
    have hza := hI.zeroAgg sid idx hz
    constructor
    · unfold getSessionTotal
      rw [if_neg hex, if_neg (not_not_intro hlt), hza.1]
    · intro ht5
      unfold getTagTotal
      rw [if_neg hex, if_neg (not_not_intro hlt), dif_pos ht5,
        hza.2 ⟨tagIdx, ht5⟩]

/-- C10 witness: on the concrete one-session trace, index 5 is rejected and
the unvoted setup 1 holds the zero handle. -/
theorem c10_witness :
    getSessionTotal (run initState opsCreate) 0 5 = .error .InvalidSetupIndex
    ∧ getTagTotal (run initState opsCreate) 0 0 7 = .error .InvalidTagIndex
    ∧ getSessionTotal (run initState opsCreate) 0 1 = .ok cipherZero := by
  have h := c10_aggregate_queries opsCreate 0 5 7 (by decide)
  have h2 := c10_aggregate_queries opsCreate 0 0 7 (by decide)
  have h3 := c10_aggregate_queries opsCreate 0 1 3 (by decide)
  exact ⟨(h.1 (by decide)).1, h2.2.1 (by decide) (by decide),
    (h3.2.2 (by decide) (by decide)).1⟩

/-- C9 (amended): on any reachable state, a session id at or beyond the
session counter (never allocated) makes every per-session operation that
carries the `sessionExists` modifier fail with `SessionNotFound`, while
`hasVoted` — which has no such modifier — cannot fail and returns the
default `false` instead. -/
theorem c9_unknown_session (ops : List Op) (sid idx v caller tagIdx s now r : Nat)
    (t : Fin 5 → Nat) (hsid : (run initState ops).sessionCounter ≤ sid) :
    submitVote (run initState ops) s now sid idx r t = .error .SessionNotFound
    ∧ closeSession (run initState ops) s sid = .error .SessionNotFound
    ∧ revealEquipment (run initState ops) s sid = .error .SessionNotFound
    ∧ requestOrganizerDecryption (run initState ops) s sid = .error .SessionNotFound
    ∧ computeRankings (run initState ops) sid = .error .SessionNotFound
    ∧ getUserVote (run initState ops) caller sid idx v = .error .SessionNotFound
    ∧ getSession (run initState ops) sid = .error .SessionNotFound
    ∧ getEquipmentNames (run initState ops) caller sid = .error .SessionNotFound
    ∧ getVoteCount (run initState ops) sid idx = .error .SessionNotFound
    ∧ isOrganizer (run initState ops) sid v = .error .SessionNotFound
    ∧ getSessionState (run initState ops) sid = .error .SessionNotFound
    ∧ isDecryptionRequested (run initState ops) sid = .error .SessionNotFound
    ∧ getSessionTotal (run initState ops) sid idx = .error .SessionNotFound
    ∧ getTagTotal (run initState ops) sid idx tagIdx = .error .SessionNotFound
    ∧ hasVoted (run initState ops) sid idx v = false := by
  have hI := inv_run ops
  have h0 : ((run initState ops).sessions sid).organizer = 0 := by
    rw [hI.freshSessions sid hsid]
    rfl
  refine ⟨?_, ?_, ?_, ?_, ?_, ?_, ?_, ?_, ?_, ?_, ?_, ?_, ?_, ?_, ?_⟩
  · unfold submitVote
    rw [if_pos h0]
  · unfold closeSession
    rw [if_pos h0]
  · unfold revealEquipment
    rw [if_pos h0]
  · unfold requestOrganizerDecryption
    rw [if_pos h0]
  · unfold computeRankings
    rw [if_pos h0]
  · unfold getUserVote
    rw [if_pos h0]
  · unfold getSession
    rw [if_pos h0]
  · unfold getEquipmentNames
    rw [if_pos h0]
  · unfold getVoteCount
    rw [if_pos h0]
  · unfold isOrganizer
    rw [if_pos h0]
  · unfold getSessionState
    rw [if_pos h0]
  · unfold isDecryptionRequested
    rw [if_pos h0]
  · unfold getSessionTotal
    rw [if_pos h0]
  · unfold getTagTotal
    rw [if_pos h0]
  · unfold hasVoted
    rw [hI.freshVotes sid idx v hsid]
    rfl

/-- C9 witness: with no session created, id 0 is unknown — `getVoteCount`
reverts with `SessionNotFound` while `hasVoted` returns `false`. -/
theorem c9_witness :
    getVoteCount (run initState []) 0 0 = .error .SessionNotFound
    ∧ hasVoted (run initState []) 0 0 1 = false := by
  have h := c9_unknown_session [] 0 0 1 2 3 4 0 5 tagsA (by decide)
  exact ⟨h.2.2.2.2.2.2.2.2.1, h.2.2.2.2.2.2.2.2.2.2.2.2.2.2⟩

/-- C9 counterexample to the claim as stated: `hasVoted` on an unknown
session id does not fail with `SessionNotFound` (it cannot fail at all, its
body being a bare mapping read); it returns the default value `false`. -/
theorem c9_counterexample :
    initState.sessionCounter = 0 ∧ hasVoted initState 0 0 1 = false ∧
    getSession initState 0 = .error .SessionNotFound :=
  ⟨rfl, rfl, rfl⟩

/-- C4 (amended): for every (session, setup, voter) triple at most one
`submitVote` ever succeeds along any trace; on a reachable state a second
attempt with any payload never succeeds and leaves the whole state (hence
the stored ballot, its flag and the counter) unchanged, and it fails with
`DuplicateVote` precisely in the situation the first submit left behind —
session existing, still `Active`, deadline not passed — while in other
situations the earlier-checked guard fires first (e.g. `DeadlinePassed`). -/
theorem c4_submit_once (ops : List Op) (sender now sid idx r : Nat)
    (t : Fin 5 → Nat) :
    (((run initState ops).votes sid idx sender).submitted = true →
      ((((run initState ops).sessions sid).organizer ≠ 0 →
        ((run initState ops).sessions sid).state = .Active →
        now ≤ ((run initState ops).sessions sid).deadline →
        submitVote (run initState ops) sender now sid idx r t =
          .error .DuplicateVote)
      ∧ ∃ e, submitVote (run initState ops) sender now sid idx r t = .error e))
    ∧ (∀ e, submitVote (run initState ops) sender now sid idx r t = .error e →
        applyOp (run initState ops) (.submit sender now sid idx r t) =
          run initState ops)
    ∧ (∀ ops2 sid2 idx2 v2, submitSuccesses initState sid2 idx2 v2 ops2 ≤ 1) := by
  refine ⟨?_, ?_, ?_⟩
  · intro hsub
    constructor
    · intro h1 h2 h3
      have h4 := submittedIdx_run ops sid idx sender hsub
      unfold submitVote
      rw [if_neg h1, if_neg (not_not_intro h2), if_neg (not_not_intro h3),
        if_neg (not_not_intro h4), if_pos hsub]
    · unfold submitVote
      split_ifs with c1 c2 c3 c4 c5 c6 <;>
        first
          | exact ⟨_, rfl⟩
          | exact absurd hsub (by simp_all)
  · intro e he
    rw [applyOp_submit, he]
  · exact fun ops2 sid2 idx2 v2 => submitSuccesses_le_one initState sid2 idx2 v2 ops2

/-- C4 witness: after voter 2's successful vote, a second in-time attempt
fails with `DuplicateVote` and leaves the state unchanged. -/
theorem c4_witness :
    submitVote (run initState opsOneVote) 2 50 0 0 5 tagsB =
      .error .DuplicateVote
    ∧ applyOp (run initState opsOneVote) (.submit 2 50 0 0 5 tagsB) =
      run initState opsOneVote
    ∧ submitSuccesses initState 0 0 2 (opsOneVote ++ [.submit 2 50 0 0 5 tagsB]) ≤ 1 := by
  have h := c4_submit_once opsOneVote 2 50 0 0 5 tagsB
  have hdup := (h.1 (by decide)).1 (by decide) (by decide) (by decide)
  exact ⟨hdup, h.2.1 .DuplicateVote hdup,
    h.2.2 (opsOneVote ++ [.submit 2 50 0 0 5 tagsB]) 0 0 2⟩

/-- C4 counterexample to the claim as stated: a second submit attempt by the
same voter for the same setup, made after the deadline, fails with
`DeadlinePassed`, not `DuplicateVote` (the deadline guard runs first). -/
theorem c4_counterexample :
    ((run initState opsOneVote).votes 0 0 2).submitted = true
    ∧ submitVote (run initState opsOneVote) 2 200 0 0 5 tagsA =
      .error .DeadlinePassed
    ∧ Err.DeadlinePassed ≠ Err.DuplicateVote :=
  ⟨rfl, rfl, by decide⟩

/-- C3 (amended): `requestOrganizerDecryption` succeeds iff the session
exists, the caller is its organizer, the state is `Closed` and no grant was
recorded; on success it sets the requested flag and grants the organizer
(and the contract) capability on all six aggregate handles of every setup
with a positive vote count; it succeeds at most once per session; a second
call by the organizer while the session is still `Closed` fails with
`AlreadyRequested`, but if the session has meanwhile been `Revealed` the
second call fails with `NotClosed` instead (the state modifier runs first);
any failing call leaves the state unchanged. -/
theorem c3_request_spec (σ : CState) (sender sid : Nat) :
    ((∃ σ', requestOrganizerDecryption σ sender sid = .ok σ') ↔
      ((σ.sessions sid).organizer ≠ 0 ∧ (σ.sessions sid).organizer = sender ∧
       (σ.sessions sid).state = .Closed ∧ σ.decryptionRequested sid = false))
    ∧ (∀ σ', requestOrganizerDecryption σ sender sid = .ok σ' →
        σ'.decryptionRequested sid = true
        ∧ ∀ i, i < (σ.sessions sid).numSetups → 0 < σ.voteCounts sid i →
          ∀ h ∈ aggHandles σ sid i,
            σ'.acl h (.addr sender) = true ∧ σ'.acl h .contract = true)
    ∧ ((σ.sessions sid).organizer ≠ 0 → (σ.sessions sid).organizer = sender →
        (σ.sessions sid).state = .Closed → σ.decryptionRequested sid = true →
        requestOrganizerDecryption σ sender sid = .error .AlreadyRequested)
    ∧ ((σ.sessions sid).organizer ≠ 0 → (σ.sessions sid).organizer = sender →
        (σ.sessions sid).state = .Revealed →
        requestOrganizerDecryption σ sender sid = .error .NotClosed)
    ∧ (∀ e, requestOrganizerDecryption σ sender sid = .error e →
        applyOp σ (.request sender sid) = σ)
    ∧ (∀ ops sid2, requestSuccesses initState sid2 ops ≤ 1) := by
  refine ⟨?_, ?_, ?_, ?_, ?_, ?_⟩
  · constructor
    · rintro ⟨σ', hok⟩
      rcases requestOrganizerDecryption_cases σ sender sid with ⟨e, he⟩ |
        ⟨c1, c2, c3, c4, _⟩
      · rw [he] at hok
        simp at hok
      · exact ⟨c1, c2, c3, c4⟩
    · rintro ⟨c1, c2, c3, c4⟩
      exact ⟨_, by
        unfold requestOrganizerDecryption
        rw [if_neg c1, if_neg (not_not_intro c2), if_neg (not_not_intro c3),
          if_neg (by simp [c4] : ¬ σ.decryptionRequested sid = true)]⟩
  · intro σ' hok
    rcases requestOrganizerDecryption_cases σ sender sid with ⟨e, he⟩ |
      ⟨c1, c2, c3, c4, hok2⟩
    · rw [he] at hok
      simp at hok
    · rw [hok2] at hok
      have hσ := Except.ok.inj hok
      rw [← hσ]
      constructor
      · show upd σ.decryptionRequested sid true sid = true
        rw [upd_self]
      · intro i hi hc h hm
        constructor
        · exact (aclAllowAll_true_iff _ _ _ _).mpr (Or.inr
            ((mem_decryptionGrants σ sid sender _ h _).mpr
              ⟨i, hi, hc, (mem_setupGrants σ sid i sender h _).mpr
                ⟨hm, Or.inl rfl⟩⟩))
        · exact (aclAllowAll_true_iff _ _ _ _).mpr (Or.inr
            ((mem_decryptionGrants σ sid sender _ h _).mpr
              ⟨i, hi, hc, (mem_setupGrants σ sid i sender h _).mpr
                ⟨hm, Or.inr rfl⟩⟩))
  · intro c1 c2 c3 c4
    unfold requestOrganizerDecryption
    rw [if_neg c1, if_neg (not_not_intro c2), if_neg (not_not_intro c3),
      if_pos c4]
  · intro c1 c2 c3
    unfold requestOrganizerDecryption
    rw [if_neg c1, if_neg (not_not_intro c2),
      if_pos (by rw [c3]; decide : ¬ (σ.sessions sid).state = .Closed)]
  · intro e he
    rw [applyOp_request, he]
  · exact fun ops sid2 => requestSuccesses_le_one initState sid2 ops

/-- C3 witness: the first request on the closed concrete session succeeds
and grants the organizer capability on the aggregate rating handle; an
immediate second request fails with `AlreadyRequested` and changes nothing. -/
theorem c3_witness :
    (∃ σ', requestOrganizerDecryption (run initState (opsOneVote ++ [.close 1 0]))
      1 0 = .ok σ')
    ∧ requestOrganizerDecryption (run initState opsOneVoteRequested) 1 0 =
      .error .AlreadyRequested
    ∧ applyOp (run initState opsOneVoteRequested) (.request 1 0) =
      run initState opsOneVoteRequested
    ∧ requestSuccesses initState 0 (opsOneVoteRequested ++ [.request 1 0]) ≤ 1 := by
  have h1 := c3_request_spec (run initState (opsOneVote ++ [.close 1 0])) 1 0
  have h2 := c3_request_spec (run initState opsOneVoteRequested) 1 0
  have halready := h2.2.2.1 (by decide) (by decide) (by decide) (by decide)
  exact ⟨h1.1.mpr ⟨by decide, by decide, by decide, by decide⟩,
    halready, h2.2.2.2.2.1 .AlreadyRequested halready,
    h2.2.2.2.2.2 (opsOneVoteRequested ++ [.request 1 0]) 0⟩

/-- C3 counterexample to the claim as stated: after the organizer's
successful request and a subsequent reveal, a second request fails with
`NotClosed`, not `AlreadyRequested`. -/
theorem c3_counterexample :
    (run initState (opsOneVoteRequested ++ [.reveal 1 0])).decryptionRequested 0 =
      true
    ∧ requestOrganizerDecryption
        (run initState (opsOneVoteRequested ++ [.reveal 1 0])) 1 0 =
      .error .NotClosed
    ∧ Err.NotClosed ≠ Err.AlreadyRequested :=
  ⟨rfl, rfl, by decide⟩

/-- C8: the setup display names are gated on reveal — after a successful
creation by a nonzero sender, at any later point along any trace,
`getEquipmentNames` fails with `NotRevealed` while the session state is not
`Revealed`, and once it is `Revealed` it returns, for every caller, exactly
the names supplied at creation, in order. -/
theorem c8_equipment_names (σ0 : CState) (s now : Nat) (ti de : String)
    (dl ns : Nat) (names : List String) (tl : String) (σ1 : CState) (sid : Nat)
    (hs : s ≠ 0)
    (hok : createSession σ0 s now ti de dl ns names tl = .ok (σ1, sid)) :
    ∀ ops caller,
      (((run σ1 ops).sessions sid).state ≠ .Revealed →
        getEquipmentNames (run σ1 ops) caller sid = .error .NotRevealed)
      ∧ (((run σ1 ops).sessions sid).state = .Revealed →
        getEquipmentNames (run σ1 ops) caller sid = .ok names) := by
  rcases createSession_cases σ0 s now ti de dl ns names tl with ⟨e, he⟩ |
    ⟨_, _, _, _, _, hok2⟩
  · rw [he] at hok
    simp at hok
  · rw [hok2] at hok
    obtain ⟨hA, hsid⟩ := Prod.mk.inj (Except.ok.inj hok)
    have e1 : σ1.sessionCounter = σ0.sessionCounter + 1 := by rw [← hA]
    have e2 : sid = σ0.sessionCounter := hsid.symm
    have hlt : sid < σ1.sessionCounter := by omega
    have horg : (σ1.sessions sid).organizer = s := by
      rw [← hA, e2]
      simp [upd_apply]
    have hnames : (σ1.sessions sid).equipmentNames = names := by
      rw [← hA, e2]
      simp [upd_apply]
    intro ops caller
    have hfr := sessionFields_run σ1 ops sid hlt
    have horg2 : ((run σ1 ops).sessions sid).organizer = s := by
      rw [hfr.1, horg]
    have hnames2 : ((run σ1 ops).sessions sid).equipmentNames = names := by
      rw [hfr.2.2.2, hnames]
    constructor
    · intro hnr
      unfold getEquipmentNames
      rw [if_neg (by rw [horg2]; exact hs), if_pos hnr]
    · intro hr
      unfold getEquipmentNames
      rw [if_neg (by rw [horg2]; exact hs), if_neg (not_not_intro hr), hnames2]

/-- C8 witness: before reveal the query fails with `NotRevealed`; after
close and reveal it returns the creation names for caller 7. -/
theorem c8_witness :
    getEquipmentNames (run c8Created []) 7 0 = .error .NotRevealed
    ∧ getEquipmentNames (run c8Created [.close 1 0, .reveal 1 0]) 7 0 =
      .ok ["A", "B"] := by
  have h := c8_equipment_names initState 1 0 "s" "d" 100 2 ["A", "B"] ""
    c8Created 0 (by decide) rfl
  exact ⟨(h [] 7).1 (by decide), (h [.close 1 0, .reveal 1 0] 7).2 (by decide)⟩

/-- C2 (amended): on every reachable state, decrypt capability on a stored
ballot's six ciphertext handles is held only by the submitting voter and the
contract — except that the session organizer also holds it when organizer
decryption has been requested and the ballot's setup holds exactly one
folded ballot, because then the aggregate handles coincide with that
ballot's own handles (the first vote is assigned to the totals directly). -/
theorem c2_ballot_capability (ops : List Op) (sid idx v hl : Nat) (p : Principal)
    (hsub : ((run initState ops).votes sid idx v).submitted = true)
    (hh : hl ∈ ballotHandles ((run initState ops).votes sid idx v))
    (hacl : (run initState ops).acl hl p = true) :
    p = .contract ∨ p = .addr v ∨
      (p = .addr ((run initState ops).sessions sid).organizer
        ∧ (run initState ops).decryptionRequested sid = true
        ∧ (run initState ops).voteCounts sid idx = 1) := by
  have hI := inv_run ops
  rcases hI.aclChar hl p hacl with h1 | ⟨sid1, idx1, v1, hsub1, hm1, hp1⟩ |
    ⟨sid2, idx2, hreq, hc, hm2, hp2⟩
  · exact Or.inl h1
  · by_cases he : sid = sid1 ∧ idx = idx1 ∧ v = v1
    · right
      left
      rw [hp1, he.2.2]
    · exfalso
      exact hI.ballotDisjoint sid idx v sid1 idx1 v1 hsub hsub1 he hl hh hm1
  · have hres := hI.ballotAgg sid idx v hsub hl hh sid2 idx2 hc hm2
    right
    right
    rw [hres.1] at hp2 hreq
    exact ⟨hp2, hreq, hres.2.2⟩

/-- C2 witness: voter 2's own capability on their own rating handle is
classified as the voter's. -/
theorem c2_witness :
    Principal.addr 2 = .contract ∨ Principal.addr 2 = .addr 2 ∨
      (Principal.addr 2 = .addr ((run initState opsOneVote).sessions 0).organizer
        ∧ (run initState opsOneVote).decryptionRequested 0 = true
        ∧ (run initState opsOneVote).voteCounts 0 0 = 1) :=
  c2_ballot_capability opsOneVote 0 0 2 1 (.addr 2) (by decide) (by decide)
    (by decide)

/-- C2 counterexample to the claim as stated: after voter 2's single vote on
setup 0, closing and `requestOrganizerDecryption` grant organizer 1 decrypt
capability on handle 1 — which is exactly voter 2's stored individual rating
ciphertext handle — although principal 1 is neither the voter nor the
contract. -/
theorem c2_counterexample :
    ((run initState opsOneVoteRequested).votes 0 0 2).submitted = true
    ∧ ((run initState opsOneVoteRequested).votes 0 0 2).rating.hdl = 1
    ∧ (run initState opsOneVoteRequested).acl 1 (.addr 1) = true
    ∧ Principal.addr 1 ≠ Principal.addr 2
    ∧ Principal.addr 1 ≠ Principal.contract :=
  ⟨rfl, rfl, rfl, by decide, by decide⟩

/-- C1: for every (session, setup) pair, after any trace the plaintext vote
counter equals the number of successfully folded ballots, the aggregate
rating-sum ciphertext decrypts to the arithmetic sum of the folded ratings,
each of the five tag-sum ciphertexts decrypts to the sum of the
corresponding folded tag values, and any trace folding a permutation of the
same ballots (voters submitting in a different order) yields the same
counter and the same decrypted aggregates. -/
theorem c1_aggregate_correct (ops ops2 : List Op) (sid idx : Nat)
    (hperm : (foldedBallots initState sid idx ops).Perm
      (foldedBallots initState sid idx ops2)) :
    ((run initState ops).voteCounts sid idx =
      (foldedBallots initState sid idx ops).length)
    ∧ (((run initState ops).sessionTotals sid idx).val =
        ((foldedBallots initState sid idx ops).map Prod.fst).sum)
    ∧ (∀ j, ((run initState ops).tagTotals sid idx j).val =
        ((foldedBallots initState sid idx ops).map (fun b => b.2 j)).sum)
    ∧ ((run initState ops2).voteCounts sid idx =
        (run initState ops).voteCounts sid idx)
    ∧ (((run initState ops2).sessionTotals sid idx).val =
        ((run initState ops).sessionTotals sid idx).val)
    ∧ (∀ j, ((run initState ops2).tagTotals sid idx j).val =
        ((run initState ops).tagTotals sid idx j).val) := by
  have key : ∀ ops', (run initState ops').voteCounts sid idx =
      (foldedBallots initState sid idx ops').length
      ∧ ((run initState ops').sessionTotals sid idx).val =
        ((foldedBallots initState sid idx ops').map Prod.fst).sum
      ∧ ∀ j, ((run initState ops').tagTotals sid idx j).val =
        ((foldedBallots initState sid idx ops').map (fun b => b.2 j)).sum := by
    intro ops'
    rcases foldedAgg ops' initState sid idx with ⟨a1, a2, a3, a4⟩
    have hz : initState.voteCounts sid idx = 0 := rfl
    refine ⟨?_, ?_, ?_⟩
    · rw [a1, hz, Nat.zero_add]
    · by_cases hemp : foldedBallots initState sid idx ops' = []
      · rcases a3 hz hemp with ⟨b1, _⟩
        rw [b1, hemp]
        rfl
      · exact (a4 hz hemp).1
    · intro j
      by_cases hemp : foldedBallots initState sid idx ops' = []
      · rcases a3 hz hemp with ⟨_, b2⟩
        rw [b2 j, hemp]
        rfl
      · exact (a4 hz hemp).2 j
  rcases key ops with ⟨k1, k2, k3⟩
  rcases key ops2 with ⟨m1, m2, m3⟩
  refine ⟨k1, k2, k3, ?_, ?_, ?_⟩
  · rw [m1, k1]
    exact hperm.length_eq.symm
  · rw [m2, k2]
    exact ((hperm.map Prod.fst).sum_eq).symm
  · intro j
    rw [m3 j, k3 j]
    exact ((hperm.map (fun b => b.2 j)).sum_eq).symm

/-- C1 witness: the two-vote trace has counter = folded length (= 2), the
decrypted rating sum equals the folded sum (8 + 6), and the swapped
submission order yields the same decrypted aggregate. -/
theorem c1_witness :
    (run initState opsTwoVotes).voteCounts 0 0 =
      (foldedBallots initState 0 0 opsTwoVotes).length
    ∧ ((run initState opsTwoVotes).sessionTotals 0 0).val =
      ((foldedBallots initState 0 0 opsTwoVotes).map Prod.fst).sum
    ∧ ((run initState opsTwoVotesSwapped).sessionTotals 0 0).val =
      ((run initState opsTwoVotes).sessionTotals 0 0).val := by
  have h := c1_aggregate_correct opsTwoVotes opsTwoVotesSwapped 0 0 (by decide)
  exact ⟨h.1, h.2.1, h.2.2.2.2.1⟩

/-- C5 witness: on the freshly created (Active) concrete session, close by
the organizer succeeds and reveal (a skip-ahead attempt) fails. -/
theorem c5_witness :
    (∃ σ', closeSession (run initState opsCreate) 1 0 = .ok σ')
    ∧ ¬ (∃ σ', revealEquipment (run initState opsCreate) 1 0 = .ok σ') := by
  have h := c5_state_forward opsCreate (.close 1 0) 0 1
  refine ⟨h.2.2.1.mpr ⟨by decide, by decide, by decide⟩, ?_⟩
  intro hex
  exact absurd ((h.2.2.2.2.1).mp hex).2.2 (by decide)

/-- C6 witness: on the concrete active session (deadline 100), the organizer
closes at time 0 (before the deadline), while a submit at time 200 fails
with `DeadlinePassed`. -/
theorem c6_witness :
    (∃ σ', closeSession (run initState opsCreate) 1 0 = .ok σ')
    ∧ submitVote (run initState opsCreate) 2 200 0 0 8 tagsA =
      .error .DeadlinePassed := by
  have h1 := c6_deadline_gating (run initState opsCreate) 1 0 0 0 8 tagsA
  have h2 := c6_deadline_gating (run initState opsCreate) 2 200 0 0 8 tagsA
  exact ⟨h1.2.2 (by decide) (by decide) (by decide),
    h2.2.1 (by decide) (by decide) (by decide)⟩

/-- C7 witness: a valid creation on a fresh deployment succeeds; a
single-setup creation is rejected. -/
theorem c7_witness :
    (∃ p, createSession initState 1 0 "s" "d" 100 2 ["A", "B"] "" = .ok p)
    ∧ ¬ (∃ p, createSession initState 1 0 "s" "d" 100 1 ["A"] "" = .ok p) := by
  have h := c7_create_spec initState 1 0 "s" "d" 100 2 ["A", "B"] "" (by decide)
  have h2 := c7_create_spec initState 1 0 "s" "d" 100 1 ["A"] "" (by decide)
  refine ⟨h.1.mpr ⟨by decide, by decide, by decide, by decide⟩, ?_⟩
  intro hex
  have hcon := h2.1.mp hex
  omega

end VinylRigVote
